import Mathlib

/-!
Verification development for the PRISMA XRD processing pipeline
(`src/XRD/core/gsas_processing.py`), as a shallow embedding in Lean 4.

Conventions of the embedding:
* numpy `float32` cells are modelled by `Val`, an exact rational together
  with a `nan` marker (numpy's NaN).  Infinities do not arise in the
  modelled code paths and are folded into `nan`.
* Python `int` arithmetic is `Nat` (`//` is `Nat.div`).
* The one floating-point expression of the chunk planner,
  `int((remaining * 0.7) ** 0.5 * aspect_ratio)`, is modelled by exact real
  arithmetic: for nonnegative reals, `⌊√x · F / A⌋ = ⌊√(x · F² / A²)⌋` and
  `⌊√q⌋ = floorSqrt ⌊q⌋` for rational `q`, so the expression becomes
  `floorSqrt ((7 * R * F * F) / (10 * A * A))` over `Nat`.
* pandas `DataFrame` rows are records of an azimuth, a frame number and a
  list of named measurement values.
-/

/-- A numpy float cell: an exact rational number or NaN. -/
inductive Val where
  | num : ℚ → Val
  | nan : Val
deriving DecidableEq

/-- Subtraction on cells; NaN propagates (IEEE semantics). -/
def valSub : Val → Val → Val
  | Val.num a, Val.num b => Val.num (a - b)
  | _, _ => Val.nan

/-- Division on cells; NaN propagates, and a zero divisor is folded to NaN
(the modelled code paths mask zero divisors out before dividing). -/
def valDiv : Val → Val → Val
  | Val.num a, Val.num b => if b = 0 then Val.nan else Val.num (a / b)
  | _, _ => Val.nan

/-- Absolute value on cells; NaN propagates. -/
def valAbs : Val → Val
  | Val.num a => Val.num |a|
  | Val.nan => Val.nan

/-- numpy `isnan`. -/
def valIsNan : Val → Bool
  | Val.num _ => false
  | Val.nan => true

/-- The test `(v != 0) & ~np.isnan(v)` used by the construction-mode strain
mask: true exactly for a nonzero rational. -/
def valNzStrict : Val → Bool
  | Val.num q => decide (q ≠ 0)
  | Val.nan => false

/-- The bare numpy test `v != 0` used by the finalized-mode strain mask:
NaN compares unequal to zero, hence true. -/
def valNzNumpy : Val → Bool
  | Val.num q => decide (q ≠ 0)
  | Val.nan => true

/-! ## Chunk planner (`XRDDataset._calculate_optimal_chunks`) -/

/-- Fixed 100 MB chunk-size target of the planner. -/
def targetBytes : ℕ := 100 * 1024 * 1024

/-- float32 element size. -/
def elementSize : ℕ := 4

/-- Computed chunk sizes for the four axes (peaks, frames, azimuths,
measurements). -/
structure ChunkDims where
  peak : ℕ
  frame : ℕ
  az : ℕ
  meas : ℕ
deriving DecidableEq

/-- Helper for `floorSqrt`: the largest `k ≤ bound` with `k * k ≤ n`. -/
def floorSqrtAux : ℕ → ℕ → ℕ
  | 0, _ => 0
  | k + 1, n => if (k + 1) * (k + 1) ≤ n then k + 1 else floorSqrtAux k n

/-- Integer square root (floor), by downward search. -/
def floorSqrt (n : ℕ) : ℕ := floorSqrtAux n n

/-- Embedding of `XRDDataset._calculate_optimal_chunks`.  The float
expression `int((remaining * 0.7) ** 0.5 * (F / A))` is modelled exactly as
`floorSqrt ((7 * remaining * F * F) / (10 * A * A))` (see the header note),
and symmetrically for the azimuth-major branch. -/
def calculateOptimalChunks (nPeaks nFrames nAzimuths nMeasurements : ℕ) : ChunkDims :=
  let _ := nPeaks
  let targetElements := targetBytes / elementSize
  let peakChunk := 1
  let measChunk := nMeasurements
  let remaining := targetElements / (peakChunk * measChunk)
  let fa :=
    if nFrames * nAzimuths ≤ remaining then
      (nFrames, nAzimuths)
    else if nAzimuths ≤ nFrames then
      let fc0 := min nFrames (floorSqrt (7 * remaining * nFrames * nFrames / (10 * nAzimuths * nAzimuths)))
      let fc := max 1 (min fc0 nFrames)
      let ac := max 1 (min nAzimuths (remaining / fc))
      (fc, ac)
    else
      let ac0 := min nAzimuths (floorSqrt (7 * remaining * nAzimuths * nAzimuths / (10 * nFrames * nFrames)))
      let ac := max 1 (min ac0 nAzimuths)
      let fc := max 1 (min nFrames (remaining / ac))
      (fc, ac)
  ⟨peakChunk, min fa.1 nFrames, min fa.2 nAzimuths, measChunk⟩

example : calculateOptimalChunks 1 1000 72 10 = ⟨1, 1000, 72, 10⟩ := by decide

example : calculateOptimalChunks 1 10 3 26214400 = ⟨1, 2, 1, 26214400⟩ := by decide

example : calculateOptimalChunks 1 1 0 1 = ⟨1, 1, 0, 1⟩ := by decide

/-! ## Dataset container (`XRDDataset`) -/

/-- Errors of the Dataset Container operations (the spec error taxonomy;
the Python code raises `RuntimeError` / `ValueError` at the corresponding
sites). -/
inductive DsError where
  | mutationAfterFinalize
  | shapeMismatch
  | duplicateMeasurement
deriving DecidableEq

/-- The 4-D backing array, as a total function (peak, frame, azimuth,
measurement) index → cell. -/
def Arr4 : Type := ℕ → ℕ → ℕ → ℕ → Val

/-- One row of a per-frame result DataFrame: an azimuth angle, the frame
number carried in the `frame` column, and named measurement values. -/
structure ResultRow where
  azimuth : ℚ
  frame : ℤ
  values : List (String × Val)

/-- Insert a row into a list sorted by ascending azimuth. -/
def insertRow (r : ResultRow) : List ResultRow → List ResultRow
  | [] => [r]
  | x :: xs => if x.azimuth ≤ r.azimuth then x :: insertRow r xs else r :: x :: xs

/-- `df.sort_values('azimuth')`: sort rows by ascending azimuth. -/
def sortRows : List ResultRow → List ResultRow
  | [] => []
  | r :: rest => insertRow r (sortRows rest)

/-- Embedding of the `XRDDataset` object state.  `measurementCols` doubles
as the `col_idx` map (a column's index is its position in the list);
`constructionMode` is the `_construction_mode` flag; the dense numpy /
chunked dask representations hold the same cells, so both lifecycle states
share the `dataArr` field. -/
structure XRDDatasetM where
  nPeaks : ℕ
  nFrames : ℕ
  nAzimuths : ℕ
  measurementCols : List String
  azStart : ℚ
  spacing : ℚ
  dataArr : Arr4
  frameNumbersArr : ℕ → ℕ → ℤ
  azimuthAnglesArr : ℕ → ℕ → ℚ
  constructionMode : Bool

/-- Python `round` (banker's rounding, half to even) on a rational. -/
def pyRound (q : ℚ) : ℤ :=
  let n := ⌊q⌋
  if q - n < 1 / 2 then n
  else if 1 / 2 < q - n then n + 1
  else if n % 2 = 0 then n else n + 1

/-- Embedding of `XRDDataset._azimuth_to_index`:
`max(0, min(int(round((azimuth - start) / spacing)), n_azimuths - 1))`. -/
def azIdxOf (azStart spacing : ℚ) (nAzimuths : ℕ) (azimuth : ℚ) : ℕ :=
  (max 0 (min (pyRound ((azimuth - azStart) / spacing)) ((nAzimuths : ℤ) - 1))).toNat

/-- Write one cell of the 4-D array. -/
def writeCell (arr : Arr4) (p f a m : ℕ) (v : Val) : Arr4 :=
  fun p2 f2 a2 m2 => if p2 = p ∧ f2 = f ∧ a2 = a ∧ m2 = m then v else arr p2 f2 a2 m2

/-- Inner loop of `set_frame_data`: for each measurement column (at its
running index `m`), write the row's value when the column is present in the
row and the value is not NaN. -/
def writeRowCols (p f a : ℕ) (row : ResultRow) : List String → ℕ → Arr4 → Arr4
  | [], _, arr => arr
  | c :: rest, m, arr =>
      writeRowCols p f a row rest (m + 1)
        (match row.values.lookup c with
         | some v => if valIsNan v then arr else writeCell arr p f a m v
         | none => arr)

/-- Outer loop of `set_frame_data` over the sorted rows. -/
def writeRows (cols : List String) (azStart spacing : ℚ) (nAz : ℕ) (p f : ℕ) :
    List ResultRow → Arr4 → Arr4
  | [], arr => arr
  | row :: rest, arr =>
      writeRows cols azStart spacing nAz p f rest
        (writeRowCols p f (azIdxOf azStart spacing nAz row.azimuth) row cols 0 arr)

/-- The azimuth-angle bookkeeping of `set_frame_data`: the first write into
a still-zero `(peak, azimuthIndex)` slot stores the row's angle. -/
def writeAzAngles (p : ℕ) (azStart spacing : ℚ) (nAz : ℕ) :
    List ResultRow → (ℕ → ℕ → ℚ) → (ℕ → ℕ → ℚ)
  | [], azArr => azArr
  | row :: rest, azArr =>
      let ai := azIdxOf azStart spacing nAz row.azimuth
      let azArr2 :=
        if azArr p ai = 0 then
          fun p2 a2 => if p2 = p ∧ a2 = ai then row.azimuth else azArr p2 a2
        else azArr
      writeAzAngles p azStart spacing nAz rest azArr2

/-- Embedding of `XRDDataset.set_frame_data`.  Once finalized, it fails
before touching any state; in construction mode it sorts the rows by
azimuth, records azimuth angles and the frame number, and writes each
non-NaN named value into `(peak_idx, frame_idx, az_idx, col_idx)`. -/
def setFrameData (ds : XRDDatasetM) (p f : ℕ) (df : List ResultRow) :
    XRDDatasetM × Option DsError :=
  if ds.constructionMode then
    let sorted := sortRows df
    let newAz := writeAzAngles p ds.azStart ds.spacing ds.nAzimuths sorted ds.azimuthAnglesArr
    let newFrameNums :=
      match sorted with
      | [] => ds.frameNumbersArr
      | r0 :: _ => fun p2 f2 => if p2 = p ∧ f2 = f then r0.frame else ds.frameNumbersArr p2 f2
    let newData := writeRows ds.measurementCols ds.azStart ds.spacing ds.nAzimuths p f sorted ds.dataArr
    ({ ds with dataArr := newData, frameNumbersArr := newFrameNums, azimuthAnglesArr := newAz }, none)
  else
    (ds, some DsError.mutationAfterFinalize)

/-- Embedding of `XRDDataset.finalize`: the one-way open → closed
transition.  The numpy → dask conversion preserves every cell, so only the
lifecycle flag changes; repeat calls are no-ops. -/
def finalizeDs (ds : XRDDatasetM) : XRDDatasetM :=
  if ds.constructionMode then { ds with constructionMode := false } else ds

/-- Embedding of `XRDDataset.add_measurement`: finalizes first if still
open; a duplicate name is silently skipped (the `if name not in col_idx`
guard has no else branch); a fresh name with a mismatched leading shape
raises; otherwise the column is appended at index `len(measurement_cols)`.
The candidate values are a 3-D array given with its shape. -/
def addMeasurement (ds : XRDDatasetM) (name : String) (shape : ℕ × ℕ × ℕ)
    (vals : ℕ → ℕ → ℕ → Val) : XRDDatasetM × Option DsError :=
  let ds1 := finalizeDs ds
  if name ∈ ds1.measurementCols then
    (ds1, none)
  else if shape ≠ (ds1.nPeaks, ds1.nFrames, ds1.nAzimuths) then
    (ds1, some DsError.shapeMismatch)
  else
    ({ ds1 with
        measurementCols := ds1.measurementCols ++ [name],
        dataArr := fun p2 f2 a2 m2 =>
          if m2 = ds1.measurementCols.length then vals p2 f2 a2 else ds1.dataArr p2 f2 a2 m2 },
     none)

/-- Direct column append used by the construction-mode branch of
`calculate_strain` (`np.concatenate` plus `col_idx` update, no checks). -/
def appendColRaw (ds : XRDDatasetM) (name : String) (colVals : ℕ → ℕ → ℕ → Val) : XRDDatasetM :=
  { ds with
      measurementCols := ds.measurementCols ++ [name],
      dataArr := fun p2 f2 a2 m2 =>
        if m2 = ds.measurementCols.length then colVals p2 f2 a2 else ds.dataArr p2 f2 a2 m2 }

/-- Embedding of `XRDDataset.calculate_strain` for a 2-D `(peaks,
azimuths)` reference table.  In construction mode the mask is
`(d != 0) & ~isnan(d) & (ref != 0) & ~isnan(ref)`; after finalization the
dask path masks only `(ref != 0) & (d != 0)` (no NaN guard — NaN compares
unequal to zero).  `abs strain` is the absolute value of the same array. -/
def calculateStrain (ds : XRDDatasetM) (referenceD : ℕ → ℕ → Val) : XRDDatasetM :=
  let dIdx := ds.measurementCols.indexOf "d"
  if ds.constructionMode then
    let strain : ℕ → ℕ → ℕ → Val := fun p f a =>
      let d := ds.dataArr p f a dIdx
      let r := referenceD p a
      if valNzStrict d && valNzStrict r then valDiv (valSub d r) r else Val.num 0
    let ds1 := appendColRaw ds "strain" strain
    appendColRaw ds1 "abs strain" (fun p f a => valAbs (strain p f a))
  else
    let strain : ℕ → ℕ → ℕ → Val := fun p f a =>
      let d := ds.dataArr p f a dIdx
      let r := referenceD p a
      if valNzNumpy r && valNzNumpy d then valDiv (valSub d r) r else Val.num 0
    let shape := (ds.nPeaks, ds.nFrames, ds.nAzimuths)
    let ds1 := (addMeasurement ds "strain" shape strain).1
    ((addMeasurement ds1 "abs strain" shape (fun p f a => valAbs (strain p f a))).1)

/-- Embedding of `XRDDataset.calculate_delta` along the frame axis:
`da.diff(slice, axis=1, prepend=0)` appended as `delta {measurement}`. -/
def calculateDelta (ds : XRDDatasetM) (measurement : String) : XRDDatasetM :=
  let ds1 := finalizeDs ds
  let cIdx := ds1.measurementCols.indexOf measurement
  let delta : ℕ → ℕ → ℕ → Val := fun p f a =>
    if f = 0 then valSub (ds1.dataArr p 0 a cIdx) (Val.num 0)
    else valSub (ds1.dataArr p f a cIdx) (ds1.dataArr p (f - 1) a cIdx)
  (addMeasurement ds1 ("delta " ++ measurement) (ds1.nPeaks, ds1.nFrames, ds1.nAzimuths) delta).1

/-- Fresh open dataset of `XRDDataset.__init__`: zero-filled arrays,
construction mode on. -/
def createDataset (nPeaks nFrames nAzimuths : ℕ) (cols : List String)
    (azStart spacing : ℚ) : XRDDatasetM :=
  ⟨nPeaks, nFrames, nAzimuths, cols, azStart, spacing,
   fun _ _ _ _ => Val.num 0, fun _ _ => 0, fun _ _ => 0, true⟩

/-! ## Result aggregation (`process_images`, lines 2094–2097) -/

/-- Inner aggregation loop: write peak `p`'s DataFrame of frame `f` unless
it is empty (`if not peak_df.empty`). -/
def mergePeaks (f : ℕ) : XRDDatasetM → ℕ → List (List ResultRow) → XRDDatasetM
  | ds, _, [] => ds
  | ds, p, df :: rest =>
      mergePeaks f (if df.isEmpty then ds else (setFrameData ds p f df).1) (p + 1) rest

/-- Outer aggregation loop over `enumerate(sample_results)`: frame `f`'s
per-peak results are written into frame slot `f`. -/
def mergeFramesAux : XRDDatasetM → ℕ → List (List (List ResultRow)) → XRDDatasetM
  | ds, _, [] => ds
  | ds, f, frameRes :: rest => mergeFramesAux (mergePeaks f ds 0 frameRes) (f + 1) rest

/-- The Result Aggregator: merge the ordered per-frame results into the
dataset, frame `i` into frame slot `i`. -/
def mergeFrames (ds : XRDDatasetM) (results : List (List (List ResultRow))) : XRDDatasetM :=
  mergeFramesAux ds 0 results

/-! ## Refinement controller (`_perform_accurate_refinement` and the
per-frame pipeline of `_process_single_frame`) -/

/-- One peak's parameter row `[pos, area, sigma, gamma]`. -/
structure Peak4 where
  pos : ℚ
  area : ℚ
  sigma : ℚ
  gamma : ℚ
deriving DecidableEq

/-- A parameter-freedom mask (`set_peakFlags` keyword dict). -/
structure RefMask where
  area : Bool
  pos : Bool
  sig : Bool
  gam : Bool
deriving DecidableEq

/-- The opaque external refinement engine (`_safe_refine` body:
`set_peakFlags`, `ref_back_peak`, `refine_peaks`): given a freedom mask, a
background-freedom mask and the current peak list, it returns the refined
peak list, or `none` when it raises an exception. -/
def Engine : Type := RefMask → List Bool → List Peak4 → Option (List Peak4)

/-- Per-peak body of `_correct_vals`: clamp only the parameters refined in
this step (`area → 1`, `sigma/gamma → 0`; an out-of-limits position is only
flagged, not reset).  Returns (this peak failed a check, corrected peak). -/
def correctPeak (limits : ℚ × ℚ) (mask : RefMask) (pk : Peak4) : Bool × Peak4 :=
  let failArea := mask.area && decide (pk.area < 0)
  let failSigma := mask.sig && decide (pk.sigma < 0)
  let failGamma := mask.gam && decide (pk.gamma < 0)
  let failPos := mask.pos && !(decide (limits.1 ≤ pk.pos) && decide (pk.pos ≤ limits.2))
  (failArea || failSigma || failGamma || failPos,
   ⟨pk.pos,
    if failArea then 1 else pk.area,
    if failSigma then 0 else pk.sigma,
    if failGamma then 0 else pk.gamma⟩)

/-- Embedding of `_correct_vals`: returns (`step_passed`, corrected peak
list).  `step_passed` is false when any peak failed a bound check. -/
def correctVals (limits : ℚ × ℚ) (mask : RefMask) (peaks : List Peak4) :
    Bool × List Peak4 :=
  (peaks.all fun pk => !(correctPeak limits mask pk).1,
   peaks.map fun pk => (correctPeak limits mask pk).2)

/-- Embedding of `_validate_parameters`: every peak must have nonnegative
area, sigma and gamma, and a position inside the 2θ limits. -/
def validateParameters (limits : ℚ × ℚ) (peaks : List Peak4) : Bool :=
  peaks.all fun pk =>
    decide (0 ≤ pk.area) && decide (0 ≤ pk.sigma) && decide (0 ≤ pk.gamma) &&
      decide (limits.1 ≤ pk.pos) && decide (pk.pos ≤ limits.2)

/-- Relative change of one scalar parameter, guarded against tiny old
values (`abs(old) > 1e-10`). -/
def relChangeVal (oldv newv : ℚ) : ℚ :=
  if 1 / 10 ^ 10 < |oldv| then |(newv - oldv) / oldv| else 0

/-- The four parameters of a peak, in source order. -/
def peakParams (pk : Peak4) : List ℚ := [pk.pos, pk.area, pk.sigma, pk.gamma]

/-- Maximum relative change between two parameter rows. -/
def maxRelPeak (oldPk newPk : Peak4) : ℚ :=
  ((peakParams oldPk).zip (peakParams newPk)).foldl
    (fun acc ov => max acc (relChangeVal ov.1 ov.2)) 0

/-- Embedding of `_calculate_parameter_changes`: `none` models the
`float('inf')` returned when either snapshot is empty; otherwise the
maximum relative change over zipped peaks and parameters. -/
def calcParamChanges (oldPs newPs : List Peak4) : Option ℚ :=
  if oldPs.isEmpty || newPs.isEmpty then none
  else some ((oldPs.zip newPs).foldl (fun acc pq => max acc (maxRelPeak pq.1 pq.2)) 0)

/-- The convergence test `param_change < CONVERGENCE_THRESHOLD` with
threshold `1e-4`; infinite change never converges. -/
def changeLtThreshold : Option ℚ → Bool
  | none => false
  | some q => decide (q < 1 / 10 ^ 4)

/-- One pass through the step sequence (`for refinement, back_ref in
zip(ref_sequence, back_sequence)`): on an engine exception the pass stops
immediately and reports failure; otherwise the correction pass runs after
every step and corrected values replace the peak list. -/
def runSequence (engine : Engine) (limits : ℚ × ℚ) :
    List (RefMask × List Bool) → List Peak4 → Bool → Bool × Bool × List Peak4
  | [], peaks, corrected => (true, corrected, peaks)
  | (mask, back) :: rest, peaks, corrected =>
      match engine mask back peaks with
      | none => (false, corrected, peaks)
      | some refined =>
          let stepRes := correctVals limits mask refined
          runSequence engine limits rest stepRes.2 (corrected || !stepRes.1)

/-- Instrumented record of one completed iteration of the outer loop. -/
structure PassInfo where
  corrected : Bool
  change : Option ℚ
  valid : Bool
deriving DecidableEq

/-- Result of `_perform_accurate_refinement`: the returned boolean, the
final peak list, the completed iterations in order, and whether the run
ended at the in-loop convergence exit. -/
structure RefineResult where
  success : Bool
  peaks : List Peak4
  passes : List PassInfo
  earlyExit : Bool
deriving DecidableEq

/-- The combined in-loop exit test of `_perform_accurate_refinement`: the
iteration count has reached the configured minimum, no correction fired
this pass, and either the relative parameter change is below the threshold
(`Converged`) or every parameter is physically valid (`All values valid`). -/
def earlyExitCond (minIter iter : ℕ) (corrected : Bool) (change : Option ℚ)
    (valid : Bool) : Bool :=
  decide (minIter ≤ iter) && !corrected && (changeLtThreshold change || valid)

/-- The outer loop `for iteration in range(max_iterations)`: snapshot,
run the step sequence, return `False` if it broke, otherwise check the
convergence exits once `iteration ≥ min_iterations` and no correction
fired this pass; loop exhaustion still returns `True`. -/
def runPasses (engine : Engine) (limits : ℚ × ℚ) (minIter : ℕ)
    (seq : List (RefMask × List Bool)) :
    ℕ → ℕ → List Peak4 → List PassInfo → RefineResult
  | _, 0, peaks, acc => ⟨true, peaks, acc.reverse, false⟩
  | iter, fuel + 1, peaks, acc =>
      match runSequence engine limits seq peaks false with
      | (false, _, pks2) => ⟨false, pks2, acc.reverse, false⟩
      | (true, corrected, pks2) =>
          let change := calcParamChanges peaks pks2
          let valid := validateParameters limits pks2
          let pass : PassInfo := ⟨corrected, change, valid⟩
          if earlyExitCond minIter iter corrected change valid then
            ⟨true, pks2, (pass :: acc).reverse, true⟩
          else
            runPasses engine limits minIter seq (iter + 1) fuel pks2 (pass :: acc)

/-- Embedding of `_perform_accurate_refinement`. -/
def performAccurateRefinement (engine : Engine) (limits : ℚ × ℚ)
    (minIter maxIter : ℕ) (refSeq : List RefMask) (backSeq : List (List Bool))
    (peaks : List Peak4) : RefineResult :=
  runPasses engine limits minIter (refSeq.zip backSeq) 0 maxIter peaks []

/-- One call to `_perform_accurate_refinement` inside
`_process_single_frame`. -/
structure Phase where
  minIter : ℕ
  maxIter : ℕ
  refSeq : List RefMask
  backSeq : List (List Bool)

/-- The all-false freedom mask. -/
def maskNone : RefMask := ⟨false, false, false, false⟩

/-- The refinement phases run for every azimuthal slice of a sample frame
(`dynamic_bkg=True` path of `_process_single_frame`, lines 1427–1469): two
dynamic-background phases, then intensity, position, shape and full. -/
def samplePhases : List Phase :=
  [⟨1, 3, [maskNone, maskNone], [[false, true, false, false], [false, false, true, false]]⟩,
   ⟨1, 3, [maskNone], [[true, false, true, false]]⟩,
   ⟨0, 3, [⟨true, false, false, false⟩], [[false, false, false, false]]⟩,
   ⟨0, 3, [⟨false, true, false, false⟩], [[false, false, false, false]]⟩,
   ⟨0, 3, [⟨false, false, true, false⟩, ⟨false, false, false, true⟩, ⟨false, false, true, true⟩],
      [[false, false, false, false], [false, false, false, false], [false, false, false, false]]⟩,
   ⟨0, 3, [⟨true, true, true, true⟩], [[false, false, false, false]]⟩]

/-- One azimuthal slice: the phases run in order on the slice's histogram
peak list, each phase's returned boolean being ignored exactly as in
`_process_single_frame`. -/
def processSlice (engine : Engine) (limits : ℚ × ℚ) (phases : List Phase)
    (peaks : List Peak4) : List Peak4 :=
  phases.foldl
    (fun pks ph => (performAccurateRefinement engine limits ph.minIter ph.maxIter ph.refSeq ph.backSeq pks).peaks)
    peaks

/-- The per-frame loop over `az_histos`: every slice is processed and its
final `PeakList` is extracted into the frame's result rows. -/
def processFrame (engine : Engine) (limits : ℚ × ℚ) (phases : List Phase)
    (slices : List (List Peak4)) : List (List Peak4) :=
  slices.map (processSlice engine limits phases)

/-! ## Cache keys (`gsas_parallel` line 1210 and `cache_key_from_params`) -/

/-- The processing parameters that enter (or should enter) a cache key. -/
structure CacheParams where
  sample : String
  limitsLo : ℚ
  limitsHi : ℚ
  spacing : ℕ
  azStart : ℚ
  azEnd : ℚ
deriving DecidableEq

/-- The data actually hashed at the `gsas_parallel` call site:
`md5(f"{file}_{params.sample}_{frame_index}")`.  Equal component triples
give equal md5 inputs, hence equal keys. -/
def gsasParallelCacheKeyData (file : String) (params : CacheParams) (frameIndex : ℕ) :
    String × String × ℕ :=
  (file, params.sample, frameIndex)

/-- The data hashed by the unused generator `cache_key_from_params`:
`md5(f"{file}_{params.limits}_{params.spacing}_{params.azimuths}_{frame}")`
— processing parameters but no sample identifier. -/
def cacheKeyFromParamsData (filePath : String) (params : CacheParams) (frameIndex : ℕ) :
    String × (ℚ × ℚ) × ℕ × (ℚ × ℚ) × ℕ :=
  (filePath, (params.limitsLo, params.limitsHi), params.spacing,
   (params.azStart, params.azEnd), frameIndex)

/-! ## Claim C2: chunk-plan shape and size bound -/

/-- Claim C2 as stated: for every valid input, peak chunk 1, measurement
chunk spanning all columns, every chunk dimension within `[1, extent]`, and
chunk bytes at most 1.5 × the target unless a single dimension alone
already exceeds the target. -/
def claimC2Stated (nPeaks nFrames nAzimuths nMeasurements : ℕ) : Prop :=
  let c := calculateOptimalChunks nPeaks nFrames nAzimuths nMeasurements
  c.peak = 1 ∧ c.meas = nMeasurements ∧
  (1 ≤ c.peak ∧ c.peak ≤ nPeaks) ∧ (1 ≤ c.frame ∧ c.frame ≤ nFrames) ∧
  (1 ≤ c.az ∧ c.az ≤ nAzimuths) ∧ (1 ≤ c.meas ∧ c.meas ≤ nMeasurements) ∧
  (c.peak * c.frame * c.az * c.meas * elementSize ≤ targetBytes * 3 / 2 ∨
   targetBytes < nPeaks * elementSize ∨ targetBytes < nFrames * elementSize ∨
   targetBytes < nAzimuths * elementSize ∨ targetBytes < nMeasurements * elementSize)

/-- C2 counterexample.  At `(1, 1, 0, 1)` (the claim admits `n_azimuths ≥
0`) the azimuth chunk is `0`, outside `[1, 0]`.  At `(1, 10, 3, 26214400)`
the plan is `(1, 2, 1, 26214400)` — 200 MB per chunk, above 1.5 × 100 MB —
while no single axis extent alone exceeds the 100 MB target
(`26214400 × 4` bytes equals it exactly). -/
theorem c2_chunk_plan_counterexample :
    ¬ claimC2Stated 1 1 0 1 ∧ ¬ claimC2Stated 1 10 3 26214400 := by
  unfold claimC2Stated
  decide

/-- Claim C2 amended: valid inputs need every extent at least 1 (the
planner returns an azimuth chunk of 0 when `n_azimuths = 0`), and the
"single dimension alone" escape reads as a single-axis slab together with
the always-full measurement span.  Then: peak chunk 1, measurement chunk
spanning all columns, every dimension within `[1, extent]`, and the chunk
within 1.5 × the target whenever both the frame slab
(`frames × measurements`) and the azimuth slab (`azimuths × measurements`)
fit the target on their own. -/
def claimC2Amended (nPeaks nFrames nAzimuths nMeasurements : ℕ) : Prop :=
  let c := calculateOptimalChunks nPeaks nFrames nAzimuths nMeasurements
  c.peak = 1 ∧ c.meas = nMeasurements ∧
  (1 ≤ c.peak ∧ c.peak ≤ nPeaks) ∧ (1 ≤ c.frame ∧ c.frame ≤ nFrames) ∧
  (1 ≤ c.az ∧ c.az ≤ nAzimuths) ∧ (1 ≤ c.meas ∧ c.meas ≤ nMeasurements) ∧
  (nFrames * nMeasurements * elementSize ≤ targetBytes →
   nAzimuths * nMeasurements * elementSize ≤ targetBytes →
   c.peak * c.frame * c.az * c.meas * elementSize ≤ targetBytes * 3 / 2)

/-- C2 amended, proved: shape and size bound of the chunk planner. -/
theorem c2_chunk_plan_bounds (nPeaks nFrames nAzimuths nMeasurements : ℕ)
    (hP : 1 ≤ nPeaks) (hF : 1 ≤ nFrames) (hA : 1 ≤ nAzimuths) (hM : 1 ≤ nMeasurements) :
    claimC2Amended nPeaks nFrames nAzimuths nMeasurements := by
  simp only [claimC2Amended, calculateOptimalChunks]
  set T := targetBytes / elementSize with hT
  have hTval : T * elementSize = targetBytes := by norm_num [hT, targetBytes, elementSize]
  have hhalf : targetBytes ≤ targetBytes * 3 / 2 := by norm_num [targetBytes]
  set R := T / (1 * nMeasurements) with hRdef
  have hRM : R * nMeasurements ≤ T := by
    rw [hRdef, one_mul]; exact Nat.div_mul_le_self _ _
  split_ifs with h1 h2
  · -- whole frame × azimuth extent fits the remaining budget
    refine ⟨trivial, trivial, ⟨le_refl 1, hP⟩, ⟨by simpa using hF, by simp⟩,
            ⟨by simpa using hA, by simp⟩, ⟨hM, le_refl _⟩, fun hFM hAM => ?_⟩
    simp only [min_self, one_mul]
    calc nFrames * nAzimuths * nMeasurements * elementSize
        ≤ R * nMeasurements * elementSize := by
          exact Nat.mul_le_mul_right _ (Nat.mul_le_mul_right _ h1)
      _ ≤ T * elementSize := Nat.mul_le_mul_right _ hRM
      _ = targetBytes := hTval
      _ ≤ targetBytes * 3 / 2 := hhalf
  · -- frame-major split
    refine ⟨trivial, trivial, ⟨le_refl 1, hP⟩,
            ⟨le_min (le_max_left _ _) hF, min_le_right _ _⟩,
            ⟨le_min (le_max_left _ _) hA, min_le_right _ _⟩,
            ⟨hM, le_refl _⟩, fun hFM hAM => ?_⟩
    have hFR : nFrames ≤ R := by
      rw [hRdef, one_mul]
      rw [Nat.le_div_iff_mul_le (Nat.lt_of_lt_of_le Nat.zero_lt_one hM)]
      have := hFM
      rw [← hTval] at this
      exact Nat.le_of_mul_le_mul_right this (by norm_num [elementSize])
    set fc0 := floorSqrt (7 * R * nFrames * nFrames / (10 * nAzimuths * nAzimuths)) with hfc0
    set fc := max 1 (min (min nFrames fc0) nFrames) with hfc
    have hfcF : fc ≤ nFrames := max_le hF (le_trans (min_le_right _ _) (le_refl _))
    have hfcR : fc ≤ R := le_trans hfcF hFR
    have hfcpos : 0 < fc := le_max_left _ _
    have hdiv1 : 1 ≤ R / fc := (Nat.one_le_div_iff hfcpos).mpr hfcR
    have hac : max 1 (min nAzimuths (R / fc)) = min nAzimuths (R / fc) :=
      max_eq_right (le_min hA hdiv1)
    have hmain : min fc nFrames * min (max 1 (min nAzimuths (R / fc))) nAzimuths ≤ R := by
      rw [hac]
      calc min fc nFrames * min (min nAzimuths (R / fc)) nAzimuths
          ≤ fc * (R / fc) :=
            Nat.mul_le_mul (min_le_left _ _) (le_trans (min_le_left _ _) (min_le_right _ _))
        _ = R / fc * fc := Nat.mul_comm _ _
        _ ≤ R := Nat.div_mul_le_self _ _
    calc 1 * min fc nFrames * min (max 1 (min nAzimuths (R / fc))) nAzimuths * nMeasurements * elementSize
        = min fc nFrames * min (max 1 (min nAzimuths (R / fc))) nAzimuths * nMeasurements * elementSize := by
          ring
      _ ≤ R * nMeasurements * elementSize := Nat.mul_le_mul_right _ (Nat.mul_le_mul_right _ hmain)
      _ ≤ T * elementSize := Nat.mul_le_mul_right _ hRM
      _ = targetBytes := hTval
      _ ≤ targetBytes * 3 / 2 := hhalf
  · -- azimuth-major split
    refine ⟨trivial, trivial, ⟨le_refl 1, hP⟩,
            ⟨le_min (le_max_left _ _) hF, min_le_right _ _⟩,
            ⟨le_min (le_max_left _ _) hA, min_le_right _ _⟩,
            ⟨hM, le_refl _⟩, fun hFM hAM => ?_⟩
    have hAR : nAzimuths ≤ R := by
      rw [hRdef, one_mul]
      rw [Nat.le_div_iff_mul_le (Nat.lt_of_lt_of_le Nat.zero_lt_one hM)]
      have := hAM
      rw [← hTval] at this
      exact Nat.le_of_mul_le_mul_right this (by norm_num [elementSize])
    set ac0 := floorSqrt (7 * R * nAzimuths * nAzimuths / (10 * nFrames * nFrames)) with hac0
    set ac := max 1 (min (min nAzimuths ac0) nAzimuths) with hac
    have hacA : ac ≤ nAzimuths := max_le hA (le_trans (min_le_right _ _) (le_refl _))
    have hacR : ac ≤ R := le_trans hacA hAR
    have hacpos : 0 < ac := le_max_left _ _
    have hdiv1 : 1 ≤ R / ac := (Nat.one_le_div_iff hacpos).mpr hacR
    have hfc : max 1 (min nFrames (R / ac)) = min nFrames (R / ac) :=
      max_eq_right (le_min hF hdiv1)
    have hmain : min (max 1 (min nFrames (R / ac))) nFrames * min ac nAzimuths ≤ R := by
      rw [hfc]
      calc min (min nFrames (R / ac)) nFrames * min ac nAzimuths
          ≤ R / ac * ac :=
            Nat.mul_le_mul (le_trans (min_le_left _ _) (min_le_right _ _)) (min_le_left _ _)
        _ ≤ R := Nat.div_mul_le_self _ _
    calc 1 * min (max 1 (min nFrames (R / ac))) nFrames * min ac nAzimuths * nMeasurements * elementSize
        = min (max 1 (min nFrames (R / ac))) nFrames * min ac nAzimuths * nMeasurements * elementSize := by
          ring
      _ ≤ R * nMeasurements * elementSize := Nat.mul_le_mul_right _ (Nat.mul_le_mul_right _ hmain)
      _ ≤ T * elementSize := Nat.mul_le_mul_right _ hRM
      _ = targetBytes := hTval
      _ ≤ targetBytes * 3 / 2 := hhalf

/-- C2 witness: the spec's own scenario (1 peak, 1000 frames, 72 azimuth
bins, 10 measurements) satisfies the hypotheses of the amended claim. -/
theorem c2_chunk_plan_bounds_witness :
    (1 ≤ 1 ∧ 1 ≤ 1000 ∧ 1 ≤ 72 ∧ 1 ≤ 10) ∧ claimC2Amended 1 1000 72 10 :=
  ⟨by norm_num,
   c2_chunk_plan_bounds 1 1000 72 10 (by norm_num) (by norm_num) (by norm_num) (by norm_num)⟩

/-! ## Claim C4: the correction pass clamps negative areas to 1 -/

/-- C4: for any refinement step whose freedom mask includes area,
`_correct_vals` maps the peak list pointwise through `correctPeak`; a peak
whose area came back negative has its area set to exactly 1, and after the
pass no peak has a negative area.  The last conjunct ties this to
`_perform_accurate_refinement`: a successful engine step inside
`runSequence` is always followed by the correction pass, so the stored
peak list has no negative areas. -/
theorem c4_area_clamped (limits : ℚ × ℚ) (mask : RefMask) (hm : mask.area = true) :
    (∀ peaks : List Peak4,
      (correctVals limits mask peaks).2 = peaks.map fun pk => (correctPeak limits mask pk).2) ∧
    (∀ pk : Peak4, pk.area < 0 → ((correctPeak limits mask pk).2).area = 1) ∧
    (∀ pk : Peak4, 0 ≤ ((correctPeak limits mask pk).2).area) ∧
    (∀ (engine : Engine) (back : List Bool) (peaks refined : List Peak4) (c0 : Bool),
      engine mask back peaks = some refined →
      ∀ pk ∈ (runSequence engine limits [(mask, back)] peaks c0).2.2, 0 ≤ pk.area) := by
  have harea : ∀ pk : Peak4, pk.area < 0 → ((correctPeak limits mask pk).2).area = 1 := by
    intro pk hneg
    simp [correctPeak, hm, hneg]
  have hnonneg : ∀ pk : Peak4, 0 ≤ ((correctPeak limits mask pk).2).area := by
    intro pk
    by_cases hneg : pk.area < 0
    · rw [harea pk hneg]; norm_num
    · push_neg at hneg
      simp only [correctPeak, hm]
      simp only [Bool.true_and]
      rcases e : decide (pk.area < 0) with _ | _
      · simpa [e] using hneg
      · simp [e]
  refine ⟨fun peaks => rfl, harea, hnonneg, ?_⟩
  intro engine back peaks refined c0 heng pk hmem
  simp only [runSequence, heng] at hmem
  simp only [correctVals, runSequence] at hmem
  rcases List.mem_map.mp hmem with ⟨pk0, _, hmap⟩
  rw [← hmap]
  exact hnonneg pk0

/-- C4 witness: a step with area freed and an incoming negative area. -/
theorem c4_area_clamped_witness :
    (RefMask.area ⟨true, false, false, false⟩ = true) ∧
    ((∀ peaks : List Peak4,
       (correctVals (0, 10) ⟨true, false, false, false⟩ peaks).2 =
         peaks.map fun pk => (correctPeak (0, 10) ⟨true, false, false, false⟩ pk).2) ∧
     (∀ pk : Peak4, pk.area < 0 →
       ((correctPeak (0, 10) ⟨true, false, false, false⟩ pk).2).area = 1) ∧
     (∀ pk : Peak4, 0 ≤ ((correctPeak (0, 10) ⟨true, false, false, false⟩ pk).2).area) ∧
     (∀ (engine : Engine) (back : List Bool) (peaks refined : List Peak4) (c0 : Bool),
       engine ⟨true, false, false, false⟩ back peaks = some refined →
       ∀ pk ∈ (runSequence engine (0, 10) [(⟨true, false, false, false⟩, back)] peaks c0).2.2,
         0 ≤ pk.area)) :=
  ⟨rfl, c4_area_clamped (0, 10) ⟨true, false, false, false⟩ rfl⟩

/-! ## Claim C5: conditions for the early convergence exit -/

/-- Claim C5 as stated: the loop returns Done before exhausting its
iteration budget only when the iteration count has reached the configured
minimum, no correction fired during that pass, and the maximum relative
parameter change is below the 1e-4 threshold. -/
def claimC5Stated : Prop :=
  ∀ (engine : Engine) (limits : ℚ × ℚ) (minIter maxIter : ℕ)
    (refSeq : List RefMask) (backSeq : List (List Bool)) (peaks : List Peak4),
    (performAccurateRefinement engine limits minIter maxIter refSeq backSeq peaks).earlyExit = true →
    ∃ info,
      (performAccurateRefinement engine limits minIter maxIter refSeq backSeq peaks).passes.getLast? = some info ∧
      minIter + 1 ≤ (performAccurateRefinement engine limits minIter maxIter refSeq backSeq peaks).passes.length ∧
      info.corrected = false ∧
      changeLtThreshold info.change = true

/-- The engine of the C5 counterexample: every step doubles each area. -/
def engineDoubleArea : Engine :=
  fun _ _ pl => some (pl.map fun pk => { pk with area := pk.area * 2 })

/-- C5 counterexample: with all parameters physically valid the loop exits
on iteration 0 of 3 even though the relative parameter change is 1, far
above the 1e-4 threshold — the code also accepts `_validate_parameters`
as an early exit. -/
theorem c5_early_exit_counterexample : ¬ claimC5Stated := by
  intro h
  have t1 : runSequence engineDoubleArea (0, 10)
      ([(⟨true, true, true, true⟩ : RefMask)].zip [[false, false, false, false]])
      [⟨5, 1, 1, 1⟩] false = (true, false, [⟨5, 2, 1, 1⟩]) := by
    simp [runSequence, engineDoubleArea, correctVals, correctPeak]
    norm_num
  have t2 : calcParamChanges [⟨5, 1, 1, 1⟩] [⟨5, 2, 1, 1⟩] = some 1 := by
    simp [calcParamChanges, maxRelPeak, relChangeVal, peakParams]
    norm_num
  have t3 : validateParameters (0, 10) [⟨5, 2, 1, 1⟩] = true := by
    simp [validateParameters]
    norm_num
  have t4 : earlyExitCond 0 0 false (some 1) true = true := by
    simp [earlyExitCond]
  have hrun :
      performAccurateRefinement engineDoubleArea (0, 10) 0 3 [⟨true, true, true, true⟩]
        [[false, false, false, false]] [⟨5, 1, 1, 1⟩] =
      ⟨true, [⟨5, 2, 1, 1⟩], [⟨false, some 1, true⟩], true⟩ := by
    rw [performAccurateRefinement]
    rw [show (3 : ℕ) = 2 + 1 from rfl]
    rw [runPasses, t1]
    simp only [t2, t3]
    rw [if_pos t4]
    simp
  rcases h engineDoubleArea (0, 10) 0 3 [⟨true, true, true, true⟩]
      [[false, false, false, false]] [⟨5, 1, 1, 1⟩] (by rw [hrun]) with
    ⟨info, hlast, _, _, hchange⟩
  rw [hrun] at hlast
  have hinfo : info = ⟨false, some 1, true⟩ := by simpa using hlast.symm
  rw [hinfo] at hchange
  simp only [changeLtThreshold] at hchange
  norm_num at hchange

/-- C5 amended: the early Done exit fires only when the iteration count
has reached the configured minimum, no correction fired during that pass,
and either the maximum relative parameter change is below the 1e-4
threshold or every peak parameter already satisfies the physical bounds
(`_validate_parameters`). -/
theorem c5_early_exit_conditions (engine : Engine) (limits : ℚ × ℚ)
    (minIter maxIter : ℕ) (refSeq : List RefMask) (backSeq : List (List Bool))
    (peaks : List Peak4)
    (hexit : (performAccurateRefinement engine limits minIter maxIter refSeq backSeq peaks).earlyExit = true) :
    ∃ info,
      (performAccurateRefinement engine limits minIter maxIter refSeq backSeq peaks).passes.getLast? = some info ∧
      minIter + 1 ≤ (performAccurateRefinement engine limits minIter maxIter refSeq backSeq peaks).passes.length ∧
      info.corrected = false ∧
      (changeLtThreshold info.change = true ∨ info.valid = true) := by
  suffices h : ∀ (fuel iter : ℕ) (pks : List Peak4) (acc : List PassInfo),
      acc.length = iter →
      (runPasses engine limits minIter (refSeq.zip backSeq) iter fuel pks acc).earlyExit = true →
      ∃ info,
        (runPasses engine limits minIter (refSeq.zip backSeq) iter fuel pks acc).passes.getLast? = some info ∧
        minIter + 1 ≤ (runPasses engine limits minIter (refSeq.zip backSeq) iter fuel pks acc).passes.length ∧
        info.corrected = false ∧
        (changeLtThreshold info.change = true ∨ info.valid = true) by
    exact h maxIter 0 peaks [] rfl hexit
  intro fuel
  induction fuel with
  | zero =>
      intro iter pks acc hlen hexit2
      simp [runPasses] at hexit2
  | succ n ih =>
      intro iter pks acc hlen hexit2
      rcases hseq : runSequence engine limits (refSeq.zip backSeq) pks false with ⟨ok, corrected, pks2⟩
      cases ok with
      | false =>
          simp only [runPasses, hseq] at hexit2
          simp at hexit2
      | true =>
          simp only [runPasses, hseq] at hexit2 ⊢
          by_cases hcond : earlyExitCond minIter iter corrected (calcParamChanges pks pks2)
              (validateParameters limits pks2) = true
          · rw [if_pos hcond] at hexit2 ⊢
            have hc := hcond
            simp only [earlyExitCond, Bool.and_eq_true, decide_eq_true_eq,
              Bool.not_eq_true', Bool.or_eq_true] at hc
            refine ⟨⟨corrected, calcParamChanges pks pks2, validateParameters limits pks2⟩,
              ?_, ?_, ?_, ?_⟩
            · simp [List.reverse_cons, List.getLast?_concat]
            · simp only [List.reverse_cons, List.length_append, List.length_reverse,
                List.length_cons, List.length_nil, hlen]
              omega
            · exact hc.1.2
            · exact hc.2
          · rw [if_neg hcond] at hexit2 ⊢
            exact ih (iter + 1) pks2 _ (by simp [hlen]) hexit2

/-- C5 witness: an engine that leaves an empty peak list untouched makes
the loop exit early on iteration 0 (empty lists validate trivially), so
the amended theorem applies. -/
theorem c5_early_exit_conditions_witness :
    (performAccurateRefinement (fun _ _ pl => some pl) (0, 10) 0 3
        [⟨false, false, false, false⟩] [[false, false, false, false]] []).earlyExit = true ∧
    ∃ info,
      (performAccurateRefinement (fun _ _ pl => some pl) (0, 10) 0 3
          [⟨false, false, false, false⟩] [[false, false, false, false]] []).passes.getLast? = some info ∧
      0 + 1 ≤ (performAccurateRefinement (fun _ _ pl => some pl) (0, 10) 0 3
          [⟨false, false, false, false⟩] [[false, false, false, false]] []).passes.length ∧
      info.corrected = false ∧
      (changeLtThreshold info.change = true ∨ info.valid = true) :=
  ⟨rfl, c5_early_exit_conditions (fun _ _ pl => some pl) (0, 10) 0 3
    [⟨false, false, false, false⟩] [[false, false, false, false]] [] rfl⟩

/-! ## Claim C3: an engine exception and the owning frame -/

/-- Claim C3 as stated: if the external engine raises during any
refinement step of a frame (here: an engine that raises on every call, on
a frame with at least one slice), the entire owning frame is aborted and
yields no peak results. -/
def claimC3Stated : Prop :=
  ∀ (engine : Engine) (limits : ℚ × ℚ) (slices : List (List Peak4)),
    (∀ mask back pl, engine mask back pl = none) → slices ≠ [] →
    processFrame engine limits samplePhases slices = []

/-- The always-raising engine. -/
def engineRaise : Engine := fun _ _ _ => none

/-- C3 counterexample: with an engine that raises on every refinement
step, a two-slice frame still processes both azimuthal slices and yields
one result row per slice — `_safe_refine` swallows the exception,
`_perform_accurate_refinement` returns `False`, and every caller in
`_process_single_frame` ignores that value. -/
theorem c3_frame_abort_counterexample : ¬ claimC3Stated := by
  intro h
  have hrun : processFrame engineRaise (0, 10) samplePhases
      [[⟨5, 1, 1, 1⟩], [⟨5, 1, 1, 1⟩]] = [[⟨5, 1, 1, 1⟩], [⟨5, 1, 1, 1⟩]] := by
    simp [processFrame, processSlice, samplePhases, performAccurateRefinement,
      runPasses, runSequence, engineRaise, maskNone]
  have := h engineRaise (0, 10) [[⟨5, 1, 1, 1⟩], [⟨5, 1, 1, 1⟩]]
    (fun _ _ _ => rfl) (by simp)
  rw [hrun] at this
  simp at this

/-- C3 amended: an engine exception is caught inside `_safe_refine`; the
enclosing `_perform_accurate_refinement` invocation stops (skipping the
remaining steps of that pass and all remaining iterations) and returns
failure, but the owning frame is not aborted: the callers ignore the
returned boolean, every azimuthal slice is still processed, and the frame
yields one result row set per slice. -/
theorem c3_failure_is_local :
    (∀ (engine : Engine) (limits : ℚ × ℚ) (phases : List Phase) (slices : List (List Peak4)),
      (processFrame engine limits phases slices).length = slices.length) ∧
    (∀ (engine : Engine) (limits : ℚ × ℚ) (mask : RefMask) (back : List Bool)
       (rest : List (RefMask × List Bool)) (peaks : List Peak4) (c0 : Bool),
      engine mask back peaks = none →
      runSequence engine limits ((mask, back) :: rest) peaks c0 = (false, c0, peaks)) ∧
    (∀ (engine : Engine) (limits : ℚ × ℚ) (minIter fuel : ℕ)
       (seq : List (RefMask × List Bool)) (peaks : List Peak4) (c : Bool) (pl : List Peak4),
      runSequence engine limits seq peaks false = (false, c, pl) →
      runPasses engine limits minIter seq 0 (fuel + 1) peaks [] = ⟨false, pl, [], false⟩) := by
  refine ⟨fun engine limits phases slices => List.length_map _ _, ?_, ?_⟩
  · intro engine limits mask back rest peaks c0 heng
    simp [runSequence, heng]
  · intro engine limits minIter fuel seq peaks c pl hseq
    simp [runPasses, hseq]

/-- C3 witness: the always-raising engine on a concrete two-slice frame. -/
theorem c3_failure_is_local_witness :
    ((processFrame engineRaise (0, 10) samplePhases
        [[⟨5, 1, 1, 1⟩], [⟨5, 1, 1, 1⟩]]).length = 2) ∧
    (engineRaise ⟨true, true, true, true⟩ [false, false, false, false] [⟨5, 1, 1, 1⟩] = none) ∧
    (runSequence engineRaise (0, 10)
        [(⟨true, true, true, true⟩, [false, false, false, false])] [⟨5, 1, 1, 1⟩] false =
      (false, false, [⟨5, 1, 1, 1⟩])) ∧
    (runPasses engineRaise (0, 10) 0
        [(⟨true, true, true, true⟩, [false, false, false, false])] 0 3 [⟨5, 1, 1, 1⟩] [] =
      ⟨false, [⟨5, 1, 1, 1⟩], [], false⟩) := by
  refine ⟨(c3_failure_is_local.1 engineRaise (0, 10) samplePhases _), rfl, ?_, ?_⟩
  · exact c3_failure_is_local.2.1 engineRaise (0, 10) ⟨true, true, true, true⟩
      [false, false, false, false] [] [⟨5, 1, 1, 1⟩] false rfl
  · exact c3_failure_is_local.2.2 engineRaise (0, 10) 0 2
      [(⟨true, true, true, true⟩, [false, false, false, false])] [⟨5, 1, 1, 1⟩] false
      [⟨5, 1, 1, 1⟩]
      (c3_failure_is_local.2.1 engineRaise (0, 10) ⟨true, true, true, true⟩
        [false, false, false, false] [] [⟨5, 1, 1, 1⟩] false rfl)

/-! ## Claim C6: what the cache key fingerprints -/

/-- Claim C6 as stated: two invocations on the same file, sample and frame
index whose processing parameters differ produce different cache keys. -/
def claimC6Stated : Prop :=
  ∀ (file : String) (p1 p2 : CacheParams) (frameIndex : ℕ),
    p1.sample = p2.sample → p1 ≠ p2 →
    gsasParallelCacheKeyData file p1 frameIndex ≠ gsasParallelCacheKeyData file p2 frameIndex

/-- C6 counterexample: two parameter sets differing only in the azimuthal
spacing (5° vs 10°) feed the very same string to the call-site md5, so the
cache keys coincide. -/
theorem c6_cache_key_counterexample : ¬ claimC6Stated := by
  intro h
  exact h "img.tif" ⟨"S1", 8, 9, 5, 0, 360⟩ ⟨"S1", 8, 9, 10, 0, 360⟩ 3 rfl
    (by simp) rfl

/-- C6 amended: the cache key computed at the `gsas_parallel` call site
fingerprints only the file path, the sample identifier and the frame
index — invocations that differ only in processing parameters share a key
— while the unused generator `cache_key_from_params` fingerprints the
processing parameters but omits the sample identifier. -/
theorem c6_cache_key_underkeyed (file : String) (p1 p2 : CacheParams) (frameIndex : ℕ)
    (hs : p1.sample = p2.sample) :
    gsasParallelCacheKeyData file p1 frameIndex = gsasParallelCacheKeyData file p2 frameIndex ∧
    (p1.limitsLo = p2.limitsLo → p1.limitsHi = p2.limitsHi → p1.spacing = p2.spacing →
     p1.azStart = p2.azStart → p1.azEnd = p2.azEnd →
     cacheKeyFromParamsData file p1 frameIndex = cacheKeyFromParamsData file p2 frameIndex) := by
  constructor
  · simp [gsasParallelCacheKeyData, hs]
  · intro h1 h2 h3 h4 h5
    simp [cacheKeyFromParamsData, h1, h2, h3, h4, h5]

/-- C6 witness: same sample, different spacing — and the parameter-keyed
generator agrees on keys even across different samples. -/
theorem c6_cache_key_underkeyed_witness :
    ((⟨"S1", 8, 9, 5, 0, 360⟩ : CacheParams).sample = (⟨"S1", 8, 9, 10, 0, 360⟩ : CacheParams).sample) ∧
    gsasParallelCacheKeyData "img.tif" ⟨"S1", 8, 9, 5, 0, 360⟩ 3 =
      gsasParallelCacheKeyData "img.tif" ⟨"S1", 8, 9, 10, 0, 360⟩ 3 :=
  ⟨rfl, (c6_cache_key_underkeyed "img.tif" ⟨"S1", 8, 9, 5, 0, 360⟩ ⟨"S1", 8, 9, 10, 0, 360⟩ 3 rfl).1⟩

/-! ## Claim C7: finalize is one-way and set_frame_data fails afterwards -/

/-- finalize always leaves the dataset closed. -/
theorem finalizeDs_constructionMode (ds : XRDDatasetM) :
    (finalizeDs ds).constructionMode = false := by
  cases h : ds.constructionMode <;> simp [finalizeDs, h]

/-- finalize is idempotent. -/
theorem finalizeDs_idem (ds : XRDDatasetM) : finalizeDs (finalizeDs ds) = finalizeDs ds := by
  cases h : ds.constructionMode <;> simp [finalizeDs, h]

/-- add_measurement never reopens a dataset. -/
theorem addMeasurement_constructionMode (ds : XRDDatasetM) (name : String)
    (shape : ℕ × ℕ × ℕ) (vals : ℕ → ℕ → ℕ → Val) :
    (addMeasurement ds name shape vals).1.constructionMode = false := by
  simp only [addMeasurement]
  split_ifs <;> simp [finalizeDs_constructionMode]

/-- C7: once `finalize` has run, every subsequent `set_frame_data` call
fails with `MutationAfterFinalize` and returns the dataset unchanged
(arrays, indices and measurement columns untouched); `finalize` is
idempotent, and no later operation (`add_measurement`,
`calculate_delta`, `calculate_strain`) reopens the dataset, so the failure
persists across any interleaved sequence of those operations. -/
theorem c7_mutation_after_finalize (ds : XRDDatasetM) :
    ((finalizeDs ds).constructionMode = false) ∧
    (∀ (p f : ℕ) (df : List ResultRow),
      setFrameData (finalizeDs ds) p f df = (finalizeDs ds, some DsError.mutationAfterFinalize)) ∧
    (∀ ds2 : XRDDatasetM, ds2.constructionMode = false →
      ∀ (p f : ℕ) (df : List ResultRow),
        setFrameData ds2 p f df = (ds2, some DsError.mutationAfterFinalize)) ∧
    (finalizeDs (finalizeDs ds) = finalizeDs ds) ∧
    (∀ name shape vals, (addMeasurement (finalizeDs ds) name shape vals).1.constructionMode = false) ∧
    (∀ measurement, (calculateDelta (finalizeDs ds) measurement).constructionMode = false) ∧
    (∀ refD, (calculateStrain (finalizeDs ds) refD).constructionMode = false) := by
  have hclosed : ∀ ds2 : XRDDatasetM, ds2.constructionMode = false →
      ∀ (p f : ℕ) (df : List ResultRow),
        setFrameData ds2 p f df = (ds2, some DsError.mutationAfterFinalize) := by
    intro ds2 h2 p f df
    simp [setFrameData, h2]
  refine ⟨finalizeDs_constructionMode ds,
    hclosed _ (finalizeDs_constructionMode ds),
    hclosed, finalizeDs_idem ds,
    fun name shape vals => addMeasurement_constructionMode _ name shape vals,
    fun measurement => ?_, fun refD => ?_⟩
  · simp only [calculateDelta]
    exact addMeasurement_constructionMode _ _ _ _
  · rw [calculateStrain]
    rw [if_neg (by simp [finalizeDs_constructionMode])]
    exact addMeasurement_constructionMode _ _ _ _

/-- C7 witness: the one-column dataset, finalized; a subsequent
`set_frame_data` call fails and returns the dataset unchanged. -/
theorem c7_mutation_after_finalize_witness :
    ((finalizeDs (createDataset 1 1 1 ["d"] 0 1)).constructionMode = false) ∧
    setFrameData (finalizeDs (createDataset 1 1 1 ["d"] 0 1)) 0 0 [⟨0, 0, []⟩] =
      (finalizeDs (createDataset 1 1 1 ["d"] 0 1), some DsError.mutationAfterFinalize) :=
  ⟨(c7_mutation_after_finalize (createDataset 1 1 1 ["d"] 0 1)).1,
   (c7_mutation_after_finalize (createDataset 1 1 1 ["d"] 0 1)).2.1 0 0 [⟨0, 0, []⟩]⟩

/-! ## Claim C9: the add_measurement contract -/

/-- Claim C9 as stated: `add_measurement` fails with `ShapeMismatch` when
the first three axes disagree, fails with `DuplicateMeasurement` when the
name already exists, and otherwise appends exactly one column (finalizing
first if still open). -/
def claimC9Stated : Prop :=
  ∀ (ds : XRDDatasetM) (name : String) (shape : ℕ × ℕ × ℕ) (vals : ℕ → ℕ → ℕ → Val),
    (name ∈ (finalizeDs ds).measurementCols →
      (addMeasurement ds name shape vals).2 = some DsError.duplicateMeasurement) ∧
    (name ∉ (finalizeDs ds).measurementCols →
     shape ≠ ((finalizeDs ds).nPeaks, (finalizeDs ds).nFrames, (finalizeDs ds).nAzimuths) →
      (addMeasurement ds name shape vals).2 = some DsError.shapeMismatch) ∧
    (name ∉ (finalizeDs ds).measurementCols →
     shape = ((finalizeDs ds).nPeaks, (finalizeDs ds).nFrames, (finalizeDs ds).nAzimuths) →
      (addMeasurement ds name shape vals).2 = none ∧
      (addMeasurement ds name shape vals).1.measurementCols =
        (finalizeDs ds).measurementCols ++ [name])

/-- A one-cell open dataset whose only column is `d`. -/
def dsOneD : XRDDatasetM := createDataset 1 1 1 ["d"] 0 1

/-- C9 counterexample: adding a measurement under an existing name is a
silent no-op (`if name not in self.col_idx` has no else branch), not a
`DuplicateMeasurement` failure. -/
theorem c9_add_measurement_counterexample : ¬ claimC9Stated := by
  intro h
  have hdup := (h dsOneD "d" (1, 1, 1) (fun _ _ _ => Val.num 0)).1
    (by simp [dsOneD, createDataset, finalizeDs])
  have hnone : (addMeasurement dsOneD "d" (1, 1, 1) (fun _ _ _ => Val.num 0)).2 = none := by
    simp [addMeasurement, dsOneD, createDataset, finalizeDs]
  rw [hnone] at hdup
  exact Option.noConfusion hdup

/-- Behaviour of `add_measurement` on every input, as a shared lemma: a
duplicate name is a silent no-op, a fresh name with mismatched axes raises
`ShapeMismatch`, and a fresh matching name appends one column. -/
theorem addMeasurement_spec (ds : XRDDatasetM) (name : String)
    (shape : ℕ × ℕ × ℕ) (vals : ℕ → ℕ → ℕ → Val) :
    (name ∈ (finalizeDs ds).measurementCols →
      addMeasurement ds name shape vals = (finalizeDs ds, none)) ∧
    (name ∉ (finalizeDs ds).measurementCols →
     shape ≠ ((finalizeDs ds).nPeaks, (finalizeDs ds).nFrames, (finalizeDs ds).nAzimuths) →
      addMeasurement ds name shape vals = (finalizeDs ds, some DsError.shapeMismatch)) ∧
    (name ∉ (finalizeDs ds).measurementCols →
     shape = ((finalizeDs ds).nPeaks, (finalizeDs ds).nFrames, (finalizeDs ds).nAzimuths) →
      (addMeasurement ds name shape vals).2 = none ∧
      (addMeasurement ds name shape vals).1.measurementCols =
        (finalizeDs ds).measurementCols ++ [name] ∧
      (∀ p f a, (addMeasurement ds name shape vals).1.dataArr p f a
          (finalizeDs ds).measurementCols.length = vals p f a) ∧
      (∀ p f a m, m ≠ (finalizeDs ds).measurementCols.length →
        (addMeasurement ds name shape vals).1.dataArr p f a m =
          (finalizeDs ds).dataArr p f a m)) := by
  refine ⟨fun hdup => ?_, fun hfresh hbad => ?_, fun hfresh hgood => ?_⟩
  · simp [addMeasurement, hdup]
  · simp [addMeasurement, hfresh, hbad]
  · refine ⟨by simp [addMeasurement, hfresh, hgood], by simp [addMeasurement, hfresh, hgood],
      fun p f a => ?_, fun p f a m hm => ?_⟩
    · simp [addMeasurement, hfresh, hgood]
    · simp [addMeasurement, hfresh, hgood, hm]

/-- C9 amended: a duplicate name is a silent no-op that returns the
(implicitly finalized) dataset unchanged with no error; a fresh name whose
leading three axes disagree fails with `ShapeMismatch`; a fresh name with
matching axes appends exactly one column named `name`, its cells holding
the given values, leaving every other column untouched. -/
theorem c9_add_measurement_contract (ds : XRDDatasetM) (name : String)
    (shape : ℕ × ℕ × ℕ) (vals : ℕ → ℕ → ℕ → Val) :
    (name ∈ (finalizeDs ds).measurementCols →
      addMeasurement ds name shape vals = (finalizeDs ds, none)) ∧
    (name ∉ (finalizeDs ds).measurementCols →
     shape ≠ ((finalizeDs ds).nPeaks, (finalizeDs ds).nFrames, (finalizeDs ds).nAzimuths) →
      addMeasurement ds name shape vals = (finalizeDs ds, some DsError.shapeMismatch)) ∧
    (name ∉ (finalizeDs ds).measurementCols →
     shape = ((finalizeDs ds).nPeaks, (finalizeDs ds).nFrames, (finalizeDs ds).nAzimuths) →
      (addMeasurement ds name shape vals).2 = none ∧
      (addMeasurement ds name shape vals).1.measurementCols =
        (finalizeDs ds).measurementCols ++ [name] ∧
      (∀ p f a, (addMeasurement ds name shape vals).1.dataArr p f a
          (finalizeDs ds).measurementCols.length = vals p f a) ∧
      (∀ p f a m, m ≠ (finalizeDs ds).measurementCols.length →
        (addMeasurement ds name shape vals).1.dataArr p f a m =
          (finalizeDs ds).dataArr p f a m)) :=
  addMeasurement_spec ds name shape vals

/-- C9 witness: appending a fresh column `x` to the one-column dataset. -/
theorem c9_add_measurement_contract_witness :
    ("x" ∉ (finalizeDs dsOneD).measurementCols) ∧
    ((1, 1, 1) = ((finalizeDs dsOneD).nPeaks, (finalizeDs dsOneD).nFrames, (finalizeDs dsOneD).nAzimuths)) ∧
    ((addMeasurement dsOneD "x" (1, 1, 1) (fun _ _ _ => Val.num 7)).2 = none ∧
     (addMeasurement dsOneD "x" (1, 1, 1) (fun _ _ _ => Val.num 7)).1.measurementCols =
       (finalizeDs dsOneD).measurementCols ++ ["x"] ∧
     (∀ p f a, (addMeasurement dsOneD "x" (1, 1, 1) (fun _ _ _ => Val.num 7)).1.dataArr p f a
         (finalizeDs dsOneD).measurementCols.length = Val.num 7) ∧
     (∀ p f a m, m ≠ (finalizeDs dsOneD).measurementCols.length →
       (addMeasurement dsOneD "x" (1, 1, 1) (fun _ _ _ => Val.num 7)).1.dataArr p f a m =
         (finalizeDs dsOneD).dataArr p f a m)) :=
  ⟨by decide, rfl,
   (c9_add_measurement_contract dsOneD "x" (1, 1, 1) (fun _ _ _ => Val.num 7)).2.2
     (by decide) rfl⟩

/-! ## Claim C10: calculate_delta and the prepend-zero convention -/

/-- Subtracting numeric zero returns the value unchanged, NaN included:
`da.diff` with `prepend=0` reproduces the raw frame-0 value. -/
theorem valSub_zero (v : Val) : valSub v (Val.num 0) = v := by
  cases v <;> simp [valSub]

/-- C10: `calculate_delta` appends a single `delta {measurement}` column
whose frame-0 cells equal the raw frame-0 value and whose cells at frame
`f ≥ 1` equal `value(f) − value(f−1)` along the frame axis. -/
theorem c10_delta_prepend_zero (ds : XRDDatasetM) (measurement : String)
    (hmem : measurement ∈ (finalizeDs ds).measurementCols)
    (hfresh : ("delta " ++ measurement) ∉ (finalizeDs ds).measurementCols) :
    (calculateDelta ds measurement).measurementCols =
      (finalizeDs ds).measurementCols ++ ["delta " ++ measurement] ∧
    (∀ p a, (calculateDelta ds measurement).dataArr p 0 a
        (finalizeDs ds).measurementCols.length =
      (finalizeDs ds).dataArr p 0 a ((finalizeDs ds).measurementCols.indexOf measurement)) ∧
    (∀ p f a, 1 ≤ f →
      (calculateDelta ds measurement).dataArr p f a
          (finalizeDs ds).measurementCols.length =
        valSub ((finalizeDs ds).dataArr p f a ((finalizeDs ds).measurementCols.indexOf measurement))
          ((finalizeDs ds).dataArr p (f - 1) a ((finalizeDs ds).measurementCols.indexOf measurement))) := by
  have hc := addMeasurement_spec (finalizeDs ds) ("delta " ++ measurement)
    ((finalizeDs ds).nPeaks, (finalizeDs ds).nFrames, (finalizeDs ds).nAzimuths)
    (fun p f a =>
      if f = 0 then
        valSub ((finalizeDs ds).dataArr p 0 a ((finalizeDs ds).measurementCols.indexOf measurement)) (Val.num 0)
      else
        valSub ((finalizeDs ds).dataArr p f a ((finalizeDs ds).measurementCols.indexOf measurement))
          ((finalizeDs ds).dataArr p (f - 1) a ((finalizeDs ds).measurementCols.indexOf measurement)))
  rw [finalizeDs_idem] at hc
  have hgood := hc.2.2 hfresh rfl
  have hdef : calculateDelta ds measurement =
      (addMeasurement (finalizeDs ds) ("delta " ++ measurement)
        ((finalizeDs ds).nPeaks, (finalizeDs ds).nFrames, (finalizeDs ds).nAzimuths)
        (fun p f a =>
          if f = 0 then
            valSub ((finalizeDs ds).dataArr p 0 a ((finalizeDs ds).measurementCols.indexOf measurement)) (Val.num 0)
          else
            valSub ((finalizeDs ds).dataArr p f a ((finalizeDs ds).measurementCols.indexOf measurement))
              ((finalizeDs ds).dataArr p (f - 1) a ((finalizeDs ds).measurementCols.indexOf measurement)))).1 := by
    rfl
  refine ⟨?_, fun p a => ?_, fun p f a hf => ?_⟩
  · rw [hdef]
    exact hgood.2.1
  · rw [hdef, hgood.2.2.1 p 0 a]
    simp [valSub_zero]
  · rw [hdef, hgood.2.2.1 p f a]
    rw [if_neg (by omega)]

/-- A two-frame open dataset with a single `area` column: 3 at frame 0,
10 at frame 1. -/
def dsTwoFrames : XRDDatasetM :=
  ⟨1, 2, 1, ["area"], 0, 1,
   fun _ f _ m => if f = 0 ∧ m = 0 then Val.num 3
                  else if f = 1 ∧ m = 0 then Val.num 10 else Val.num 0,
   fun _ _ => 0, fun _ _ => 0, true⟩

/-- C10 witness: a two-frame dataset with a single `area` column holding 3
at frame 0 and 10 at frame 1 gives delta cells 3 and 7. -/
theorem c10_delta_prepend_zero_witness :
    ("area" ∈ (finalizeDs dsTwoFrames).measurementCols) ∧
    ("delta area" ∉ (finalizeDs dsTwoFrames).measurementCols) ∧
    (calculateDelta dsTwoFrames "area").measurementCols =
      (finalizeDs dsTwoFrames).measurementCols ++ ["delta area"] ∧
    (calculateDelta dsTwoFrames "area").dataArr 0 0 0 1 = Val.num 3 ∧
    (calculateDelta dsTwoFrames "area").dataArr 0 1 0 1 = Val.num 7 := by
  have h := c10_delta_prepend_zero dsTwoFrames "area" (by decide) (by decide)
  refine ⟨by decide, by decide, h.1, ?_, ?_⟩
  · have h0 := h.2.1 0 0
    simpa [dsTwoFrames, finalizeDs] using h0
  · have h1 := h.2.2 0 1 0 (le_refl 1)
    have harith : (10 : ℚ) - 3 = 7 := by norm_num
    simpa [dsTwoFrames, finalizeDs, valSub, harith] using h1

/-! ## Claim C8: the strain "always renderable" policy -/

/-- A closed dataset is already finalized. -/
theorem finalizeDs_of_closed (ds : XRDDatasetM) (h : ds.constructionMode = false) :
    finalizeDs ds = ds := by
  simp [finalizeDs, h]

/-- Cell-level description of the construction-mode (`open`) branch of
`calculate_strain`: mask `(d != 0) & ~isnan(d) & (ref != 0) & ~isnan(ref)`,
masked cells 0, `abs strain` the absolute value of `strain`. -/
theorem c8_cells_open (ds : XRDDatasetM) (refD : ℕ → ℕ → Val)
    (hcm : ds.constructionMode = true) :
    (calculateStrain ds refD).measurementCols = ds.measurementCols ++ ["strain", "abs strain"] ∧
    (∀ p f a,
      (calculateStrain ds refD).dataArr p f a ds.measurementCols.length =
        (if valNzStrict (ds.dataArr p f a (ds.measurementCols.indexOf "d")) &&
            valNzStrict (refD p a) then
          valDiv (valSub (ds.dataArr p f a (ds.measurementCols.indexOf "d")) (refD p a)) (refD p a)
        else Val.num 0)) ∧
    (∀ p f a,
      (calculateStrain ds refD).dataArr p f a (ds.measurementCols.length + 1) =
        valAbs ((calculateStrain ds refD).dataArr p f a ds.measurementCols.length)) := by
  refine ⟨?_, fun p f a => ?_, fun p f a => ?_⟩
  · simp [calculateStrain, hcm, appendColRaw]
  · simp [calculateStrain, hcm, appendColRaw]
  · simp [calculateStrain, hcm, appendColRaw]

/-- Cell-level description of the finalized (`closed`) branch of
`calculate_strain`: the dask mask is only `(ref != 0) & (d != 0)` — there
is no NaN guard, and NaN compares unequal to zero. -/
theorem c8_cells_closed (ds : XRDDatasetM) (refD : ℕ → ℕ → Val)
    (hcm : ds.constructionMode = false)
    (hs : "strain" ∉ ds.measurementCols) (habs : "abs strain" ∉ ds.measurementCols) :
    (calculateStrain ds refD).measurementCols = ds.measurementCols ++ ["strain", "abs strain"] ∧
    (∀ p f a,
      (calculateStrain ds refD).dataArr p f a ds.measurementCols.length =
        (if valNzNumpy (refD p a) &&
            valNzNumpy (ds.dataArr p f a (ds.measurementCols.indexOf "d")) then
          valDiv (valSub (ds.dataArr p f a (ds.measurementCols.indexOf "d")) (refD p a)) (refD p a)
        else Val.num 0)) ∧
    (∀ p f a,
      (calculateStrain ds refD).dataArr p f a (ds.measurementCols.length + 1) =
        valAbs ((calculateStrain ds refD).dataArr p f a ds.measurementCols.length)) := by
  have hne : ("abs strain" : String) ≠ "strain" := by decide
  refine ⟨?_, fun p f a => ?_, fun p f a => ?_⟩
  · simp [calculateStrain, hcm, addMeasurement, finalizeDs, hs, habs, hne]
  · simp [calculateStrain, hcm, addMeasurement, finalizeDs, hs, habs, hne]
  · simp [calculateStrain, hcm, addMeasurement, finalizeDs, hs, habs, hne]

/-- Claim C8 as stated: in both lifecycle states, every cell where the
sample or reference d-spacing is zero or non-finite holds exactly 0, and
every other cell holds `(d − ref) / ref`. -/
def claimC8Stated : Prop :=
  ∀ (ds : XRDDatasetM) (refD : ℕ → ℕ → Val),
    "d" ∈ ds.measurementCols → "strain" ∉ ds.measurementCols →
    "abs strain" ∉ ds.measurementCols →
    (calculateStrain ds refD).measurementCols = ds.measurementCols ++ ["strain", "abs strain"] ∧
    ∀ p f a,
      ((ds.dataArr p f a (ds.measurementCols.indexOf "d") = Val.num 0 ∨
        ds.dataArr p f a (ds.measurementCols.indexOf "d") = Val.nan ∨
        refD p a = Val.num 0 ∨ refD p a = Val.nan) →
        (calculateStrain ds refD).dataArr p f a ds.measurementCols.length = Val.num 0) ∧
      (∀ qd qr : ℚ,
        ds.dataArr p f a (ds.measurementCols.indexOf "d") = Val.num qd →
        refD p a = Val.num qr → qd ≠ 0 → qr ≠ 0 →
        (calculateStrain ds refD).dataArr p f a ds.measurementCols.length =
          Val.num ((qd - qr) / qr))

/-- A one-cell finalized dataset whose `d` value is NaN. -/
def dsNanD : XRDDatasetM :=
  ⟨1, 1, 1, ["d"], 0, 1, fun _ _ _ _ => Val.nan, fun _ _ => 0, fun _ _ => 0, false⟩

/-- C8 counterexample: in the finalized path the dask mask checks only
`(ref != 0) & (d != 0)`; a NaN `d` passes that mask (NaN compares unequal
to zero), so the strain cell holds NaN — not the 0 the claim requires. -/
theorem c8_strain_counterexample : ¬ claimC8Stated := by
  intro h
  have hcell :=
    ((h dsNanD (fun _ _ => Val.num 1) (by decide) (by decide) (by decide)).2 0 0 0).1
      (Or.inr (Or.inl rfl))
  have heval : (calculateStrain dsNanD (fun _ _ => Val.num 1)).dataArr 0 0 0
      dsNanD.measurementCols.length = Val.nan := by
    rw [(c8_cells_closed dsNanD (fun _ _ => Val.num 1) rfl (by decide) (by decide)).2.1 0 0 0]
    simp [dsNanD, valNzNumpy, valSub, valDiv]
  rw [heval] at hcell
  exact Val.noConfusion hcell

/-- Claim C8 amended: both paths append exactly `strain` and `abs strain`
(the latter the absolute value of the former, NaN propagating).  In the
open (construction) path a cell is 0 exactly where the sample or reference
d-spacing is zero or NaN, else `(d − ref) / ref`.  In the closed
(finalized) path only numeric zeros are masked to 0; a NaN sample or
reference d-spacing (with the other operand not numerically zero) yields a
NaN cell; other cells hold `(d − ref) / ref`. -/
def claimC8Amended (ds : XRDDatasetM) (refD : ℕ → ℕ → Val) : Prop :=
  (calculateStrain ds refD).measurementCols = ds.measurementCols ++ ["strain", "abs strain"] ∧
  (∀ p f a,
    (calculateStrain ds refD).dataArr p f a (ds.measurementCols.length + 1) =
      valAbs ((calculateStrain ds refD).dataArr p f a ds.measurementCols.length)) ∧
  (ds.constructionMode = true →
    ∀ p f a,
      ((ds.dataArr p f a (ds.measurementCols.indexOf "d") = Val.num 0 ∨
        ds.dataArr p f a (ds.measurementCols.indexOf "d") = Val.nan ∨
        refD p a = Val.num 0 ∨ refD p a = Val.nan) →
        (calculateStrain ds refD).dataArr p f a ds.measurementCols.length = Val.num 0) ∧
      (∀ qd qr : ℚ,
        ds.dataArr p f a (ds.measurementCols.indexOf "d") = Val.num qd →
        refD p a = Val.num qr → qd ≠ 0 → qr ≠ 0 →
        (calculateStrain ds refD).dataArr p f a ds.measurementCols.length =
          Val.num ((qd - qr) / qr))) ∧
  (ds.constructionMode = false →
    ∀ p f a,
      ((ds.dataArr p f a (ds.measurementCols.indexOf "d") = Val.num 0 ∨
        refD p a = Val.num 0) →
        (calculateStrain ds refD).dataArr p f a ds.measurementCols.length = Val.num 0) ∧
      (ds.dataArr p f a (ds.measurementCols.indexOf "d") = Val.nan →
        refD p a ≠ Val.num 0 →
        (calculateStrain ds refD).dataArr p f a ds.measurementCols.length = Val.nan) ∧
      (refD p a = Val.nan →
        ds.dataArr p f a (ds.measurementCols.indexOf "d") ≠ Val.num 0 →
        (calculateStrain ds refD).dataArr p f a ds.measurementCols.length = Val.nan) ∧
      (∀ qd qr : ℚ,
        ds.dataArr p f a (ds.measurementCols.indexOf "d") = Val.num qd →
        refD p a = Val.num qr → qd ≠ 0 → qr ≠ 0 →
        (calculateStrain ds refD).dataArr p f a ds.measurementCols.length =
          Val.num ((qd - qr) / qr)))

/-- C8 amended, proved. -/
theorem c8_strain_renderable (ds : XRDDatasetM) (refD : ℕ → ℕ → Val)
    (hd : "d" ∈ ds.measurementCols) (hs : "strain" ∉ ds.measurementCols)
    (habs : "abs strain" ∉ ds.measurementCols) :
    claimC8Amended ds refD := by
  by_cases hcm : ds.constructionMode = true
  · obtain ⟨hcols, hcell, habscell⟩ := c8_cells_open ds refD hcm
    refine ⟨hcols, habscell, fun _ p f a => ⟨fun hbad => ?_, fun qd qr hqd hqr hqd0 hqr0 => ?_⟩,
      fun hcm2 => absurd hcm2 (by simp [hcm])⟩
    · rw [hcell p f a]
      rcases hbad with hb | hb | hb | hb <;>
        simp [hb, valNzStrict]
    · rw [hcell p f a, hqd, hqr]
      simp [valNzStrict, hqd0, hqr0, valSub, valDiv]
  · have hcm2 : ds.constructionMode = false := by
      cases h2 : ds.constructionMode
      · rfl
      · exact absurd h2 hcm
    obtain ⟨hcols, hcell, habscell⟩ := c8_cells_closed ds refD hcm2 hs habs
    refine ⟨hcols, habscell, fun hc => absurd hc hcm,
      fun _ p f a => ⟨fun hbad => ?_, fun hdnan hrnz => ?_, fun hrnan hdnz => ?_,
        fun qd qr hqd hqr hqd0 hqr0 => ?_⟩⟩
    · rw [hcell p f a]
      rcases hbad with hb | hb <;> simp [hb, valNzNumpy]
    · rw [hcell p f a, hdnan]
      rcases hr : refD p a with qr | _
      · have hqr0 : qr ≠ 0 := fun h0 => hrnz (by rw [hr, h0])
        simp [valNzNumpy, hqr0, valSub, valDiv]
      · simp [valNzNumpy, valSub, valDiv]
    · rw [hcell p f a, hrnan]
      rcases hdd : ds.dataArr p f a (ds.measurementCols.indexOf "d") with qd | _
      · have hqd0 : qd ≠ 0 := fun h0 => hdnz (by rw [hdd, h0])
        simp [valNzNumpy, hqd0, valSub, valDiv]
      · simp [valNzNumpy, valSub, valDiv]
    · rw [hcell p f a, hqd, hqr]
      simp [valNzNumpy, hqd0, hqr0, valSub, valDiv]

/-- C8 witness: the NaN-valued finalized dataset satisfies the hypotheses
of the amended claim. -/
theorem c8_strain_renderable_witness :
    ("d" ∈ dsNanD.measurementCols ∧ "strain" ∉ dsNanD.measurementCols ∧
      "abs strain" ∉ dsNanD.measurementCols) ∧
    claimC8Amended dsNanD (fun _ _ => Val.num 1) :=
  ⟨by decide,
   c8_strain_renderable dsNanD (fun _ _ => Val.num 1) (by decide) (by decide) (by decide)⟩

/-! ## Claim C1: deterministic frame-slot merging by the Result Aggregator -/

theorem writeRowCols_ne (p f a : ℕ) (row : ResultRow) :
    ∀ (cols : List String) (m0 : ℕ) (arr : Arr4) (p2 f2 a2 m2 : ℕ),
      p2 ≠ p ∨ f2 ≠ f →
      writeRowCols p f a row cols m0 arr p2 f2 a2 m2 = arr p2 f2 a2 m2
  | [], m0, arr, p2, f2, a2, m2, hne => rfl
  | c :: rest, m0, arr, p2, f2, a2, m2, hne => by
      rw [writeRowCols]
      rw [writeRowCols_ne p f a row rest (m0 + 1) _ p2 f2 a2 m2 hne]
      rcases row.values.lookup c with _ | v
      · rfl
      · simp only []
        split
        · rfl
        · simp only [writeCell]
          rw [if_neg]
          rintro ⟨hp, hf, -⟩
          rcases hne with h | h
          · exact h hp
          · exact h hf

theorem writeRows_ne (cols : List String) (azStart spacing : ℚ) (nAz : ℕ) (p f : ℕ) :
    ∀ (rows : List ResultRow) (arr : Arr4) (p2 f2 a2 m2 : ℕ),
      p2 ≠ p ∨ f2 ≠ f →
      writeRows cols azStart spacing nAz p f rows arr p2 f2 a2 m2 = arr p2 f2 a2 m2
  | [], arr, p2, f2, a2, m2, hne => rfl
  | row :: rest, arr, p2, f2, a2, m2, hne => by
      rw [writeRows]
      rw [writeRows_ne cols azStart spacing nAz p f rest _ p2 f2 a2 m2 hne]
      exact writeRowCols_ne p f _ row cols 0 arr p2 f2 a2 m2 hne

theorem writeRowCols_agree (p f a : ℕ) (row : ResultRow) :
    ∀ (cols : List String) (m0 : ℕ) (arr arr2 : Arr4),
      (∀ a3 m3, arr p f a3 m3 = arr2 p f a3 m3) →
      ∀ a3 m3,
        writeRowCols p f a row cols m0 arr p f a3 m3 =
          writeRowCols p f a row cols m0 arr2 p f a3 m3
  | [], m0, arr, arr2, hagree, a3, m3 => hagree a3 m3
  | c :: rest, m0, arr, arr2, hagree, a3, m3 => by
      rw [writeRowCols, writeRowCols]
      apply writeRowCols_agree p f a row rest (m0 + 1)
      intro a4 m4
      rcases row.values.lookup c with _ | v
      · exact hagree a4 m4
      · simp only []
        split
        · exact hagree a4 m4
        · simp only [writeCell]
          split
          · rfl
          · exact hagree a4 m4

theorem writeRows_agree (cols : List String) (azStart spacing : ℚ) (nAz : ℕ) (p f : ℕ) :
    ∀ (rows : List ResultRow) (arr arr2 : Arr4),
      (∀ a3 m3, arr p f a3 m3 = arr2 p f a3 m3) →
      ∀ a3 m3,
        writeRows cols azStart spacing nAz p f rows arr p f a3 m3 =
          writeRows cols azStart spacing nAz p f rows arr2 p f a3 m3
  | [], arr, arr2, hagree, a3, m3 => hagree a3 m3
  | row :: rest, arr, arr2, hagree, a3, m3 => by
      rw [writeRows, writeRows]
      apply writeRows_agree cols azStart spacing nAz p f rest
      intro a4 m4
      exact writeRowCols_agree p f _ row cols 0 arr arr2 hagree a4 m4

theorem setFrameData_meta (ds : XRDDatasetM) (p f : ℕ) (df : List ResultRow) :
    (setFrameData ds p f df).1.measurementCols = ds.measurementCols ∧
    (setFrameData ds p f df).1.azStart = ds.azStart ∧
    (setFrameData ds p f df).1.spacing = ds.spacing ∧
    (setFrameData ds p f df).1.nAzimuths = ds.nAzimuths ∧
    (setFrameData ds p f df).1.nPeaks = ds.nPeaks ∧
    (setFrameData ds p f df).1.nFrames = ds.nFrames ∧
    (setFrameData ds p f df).1.constructionMode = ds.constructionMode := by
  unfold setFrameData
  split_ifs with h <;> simp [h]

theorem setFrameData_dataArr_ne (ds : XRDDatasetM) (p f : ℕ) (df : List ResultRow)
    (hcm : ds.constructionMode = true) (p2 f2 : ℕ) (hne : p2 ≠ p ∨ f2 ≠ f) (a m : ℕ) :
    (setFrameData ds p f df).1.dataArr p2 f2 a m = ds.dataArr p2 f2 a m := by
  simp only [setFrameData, hcm, if_true]
  exact writeRows_ne _ _ _ _ p f _ _ p2 f2 a m hne

theorem setFrameData_cell_agree (ds ds0 : XRDDatasetM) (p f : ℕ) (df : List ResultRow)
    (h1 : ds.constructionMode = true) (h0 : ds0.constructionMode = true)
    (hcols : ds.measurementCols = ds0.measurementCols)
    (hstart : ds.azStart = ds0.azStart) (hsp : ds.spacing = ds0.spacing)
    (hna : ds.nAzimuths = ds0.nAzimuths)
    (hagree : ∀ a m, ds.dataArr p f a m = ds0.dataArr p f a m) (a m : ℕ) :
    (setFrameData ds p f df).1.dataArr p f a m =
      (setFrameData ds0 p f df).1.dataArr p f a m := by
  simp only [setFrameData, h1, h0, if_true]
  rw [hcols, hstart, hsp, hna]
  exact writeRows_agree _ _ _ _ p f _ _ _ hagree a m

theorem mergePeaks_meta :
    ∀ (dfs : List (List ResultRow)) (ds : XRDDatasetM) (f p0 : ℕ),
      (mergePeaks f ds p0 dfs).measurementCols = ds.measurementCols ∧
      (mergePeaks f ds p0 dfs).azStart = ds.azStart ∧
      (mergePeaks f ds p0 dfs).spacing = ds.spacing ∧
      (mergePeaks f ds p0 dfs).nAzimuths = ds.nAzimuths ∧
      (mergePeaks f ds p0 dfs).constructionMode = ds.constructionMode
  | [], ds, f, p0 => ⟨rfl, rfl, rfl, rfl, rfl⟩
  | df :: rest, ds, f, p0 => by
      rw [mergePeaks]
      have hstep := mergePeaks_meta rest (if df.isEmpty then ds else (setFrameData ds p0 f df).1) f (p0 + 1)
      have hmeta := setFrameData_meta ds p0 f df
      split_ifs at hstep ⊢ with h
      · exact hstep
      · exact ⟨hstep.1.trans hmeta.1, hstep.2.1.trans hmeta.2.1,
          hstep.2.2.1.trans hmeta.2.2.1, hstep.2.2.2.1.trans hmeta.2.2.2.1,
          hstep.2.2.2.2.trans hmeta.2.2.2.2.2.2⟩

theorem mergePeaks_dataArr_ne :
    ∀ (dfs : List (List ResultRow)) (ds : XRDDatasetM) (f p0 p2 f2 a m : ℕ),
      ds.constructionMode = true → (p2 < p0 ∨ f2 ≠ f) →
      (mergePeaks f ds p0 dfs).dataArr p2 f2 a m = ds.dataArr p2 f2 a m
  | [], ds, f, p0, p2, f2, a, m, hcm, hne => rfl
  | df :: rest, ds, f, p0, p2, f2, a, m, hcm, hne => by
      rw [mergePeaks]
      have hcm2 : (if df.isEmpty then ds else (setFrameData ds p0 f df).1).constructionMode = true := by
        split_ifs with h
        · exact hcm
        · rw [(setFrameData_meta ds p0 f df).2.2.2.2.2.2, hcm]
      rw [mergePeaks_dataArr_ne rest _ f (p0 + 1) p2 f2 a m hcm2
        (hne.imp Nat.lt_succ_of_lt id)]
      split_ifs with h
      · rfl
      · refine setFrameData_dataArr_ne ds p0 f df hcm p2 f2 ?_ a m
        rcases hne with h2 | h2
        · exact Or.inl (Nat.ne_of_lt h2)
        · exact Or.inr h2

theorem mergePeaks_cell :
    ∀ (dfs : List (List ResultRow)) (ds : XRDDatasetM) (f p0 j a m : ℕ)
      (hcm : ds.constructionMode = true) (hj : j < dfs.length),
      (mergePeaks f ds p0 dfs).dataArr (p0 + j) f a m =
        (if (dfs.get ⟨j, hj⟩).isEmpty then ds.dataArr (p0 + j) f a m
         else (setFrameData ds (p0 + j) f (dfs.get ⟨j, hj⟩)).1.dataArr (p0 + j) f a m)
  | [], ds, f, p0, j, a, m, hcm, hj => absurd hj (by simp)
  | df :: rest, ds, f, p0, 0, a, m, hcm, hj => by
      rw [mergePeaks]
      have hcm2 : (if df.isEmpty then ds else (setFrameData ds p0 f df).1).constructionMode = true := by
        split_ifs with h
        · exact hcm
        · rw [(setFrameData_meta ds p0 f df).2.2.2.2.2.2, hcm]
      rw [mergePeaks_dataArr_ne rest _ f (p0 + 1) (p0 + 0) f a m hcm2 (Or.inl (by omega))]
      simp only [List.get]
      exact apply_ite (fun d => XRDDatasetM.dataArr d (p0 + 0) f a m) _ _ _
  | df :: rest, ds, f, p0, j + 1, a, m, hcm, hj => by
      rw [mergePeaks]
      have hcm2 : (if df.isEmpty then ds else (setFrameData ds p0 f df).1).constructionMode = true := by
        split_ifs with h
        · exact hcm
        · rw [(setFrameData_meta ds p0 f df).2.2.2.2.2.2, hcm]
      have hj2 : j < rest.length := by
        have := hj
        simp only [List.length_cons] at this
        omega
      have hIH := mergePeaks_cell rest (if df.isEmpty then ds else (setFrameData ds p0 f df).1)
        f (p0 + 1) j a m hcm2 hj2
      have hpadd : p0 + (j + 1) = p0 + 1 + j := by omega
      rw [hpadd, hIH]
      have hagree : ∀ a3 m3,
          (if df.isEmpty then ds else (setFrameData ds p0 f df).1).dataArr (p0 + 1 + j) f a3 m3 =
            ds.dataArr (p0 + 1 + j) f a3 m3 := by
        intro a3 m3
        split_ifs with h
        · rfl
        · exact setFrameData_dataArr_ne ds p0 f df hcm _ f (Or.inl (by omega)) a3 m3
      have hmeta := setFrameData_meta ds p0 f df
      have hcols : (if df.isEmpty then ds else (setFrameData ds p0 f df).1).measurementCols =
          ds.measurementCols := by
        split_ifs with h
        · rfl
        · exact hmeta.1
      have hstart : (if df.isEmpty then ds else (setFrameData ds p0 f df).1).azStart = ds.azStart := by
        split_ifs with h
        · rfl
        · exact hmeta.2.1
      have hsp : (if df.isEmpty then ds else (setFrameData ds p0 f df).1).spacing = ds.spacing := by
        split_ifs with h
        · rfl
        · exact hmeta.2.2.1
      have hna : (if df.isEmpty then ds else (setFrameData ds p0 f df).1).nAzimuths = ds.nAzimuths := by
        split_ifs with h
        · rfl
        · exact hmeta.2.2.2.1
      simp only [List.get_cons_succ]
      by_cases h : (rest.get ⟨j, hj2⟩).isEmpty = true
      · rw [if_pos h, if_pos h]
        exact hagree a m
      · rw [if_neg h, if_neg h]
        exact setFrameData_cell_agree _ ds (p0 + 1 + j) f _ hcm2 hcm hcols hstart hsp hna hagree a m

theorem mergeFramesAux_meta :
    ∀ (results : List (List (List ResultRow))) (ds : XRDDatasetM) (f0 : ℕ),
      (mergeFramesAux ds f0 results).measurementCols = ds.measurementCols ∧
      (mergeFramesAux ds f0 results).azStart = ds.azStart ∧
      (mergeFramesAux ds f0 results).spacing = ds.spacing ∧
      (mergeFramesAux ds f0 results).nAzimuths = ds.nAzimuths ∧
      (mergeFramesAux ds f0 results).constructionMode = ds.constructionMode
  | [], ds, f0 => ⟨rfl, rfl, rfl, rfl, rfl⟩
  | frameRes :: rest, ds, f0 => by
      rw [mergeFramesAux]
      have hstep := mergeFramesAux_meta rest (mergePeaks f0 ds 0 frameRes) (f0 + 1)
      have hmp := mergePeaks_meta frameRes ds f0 0
      exact ⟨hstep.1.trans hmp.1, hstep.2.1.trans hmp.2.1, hstep.2.2.1.trans hmp.2.2.1,
        hstep.2.2.2.1.trans hmp.2.2.2.1, hstep.2.2.2.2.trans hmp.2.2.2.2⟩

theorem mergeFramesAux_dataArr_lt :
    ∀ (results : List (List (List ResultRow))) (ds : XRDDatasetM) (f0 p F a m : ℕ),
      ds.constructionMode = true → F < f0 →
      (mergeFramesAux ds f0 results).dataArr p F a m = ds.dataArr p F a m
  | [], ds, f0, p, F, a, m, hcm, hlt => rfl
  | frameRes :: rest, ds, f0, p, F, a, m, hcm, hlt => by
      rw [mergeFramesAux]
      have hcm2 : (mergePeaks f0 ds 0 frameRes).constructionMode = true := by
        rw [(mergePeaks_meta frameRes ds f0 0).2.2.2.2, hcm]
      rw [mergeFramesAux_dataArr_lt rest _ (f0 + 1) p F a m hcm2 (by omega)]
      exact mergePeaks_dataArr_ne frameRes ds f0 0 p F a m hcm (Or.inr (by omega))

theorem mergeFramesAux_cell :
    ∀ (results : List (List (List ResultRow))) (ds : XRDDatasetM) (f0 j p a m : ℕ)
      (hcm : ds.constructionMode = true) (hj : j < results.length)
      (hp : p < (results.get ⟨j, hj⟩).length),
      (mergeFramesAux ds f0 results).dataArr p (f0 + j) a m =
        (if ((results.get ⟨j, hj⟩).get ⟨p, hp⟩).isEmpty then ds.dataArr p (f0 + j) a m
         else (setFrameData ds p (f0 + j) ((results.get ⟨j, hj⟩).get ⟨p, hp⟩)).1.dataArr p (f0 + j) a m)
  | [], ds, f0, j, p, a, m, hcm, hj, hp => absurd hj (by simp)
  | frameRes :: rest, ds, f0, 0, p, a, m, hcm, hj, hp => by
      rw [mergeFramesAux]
      have hcm2 : (mergePeaks f0 ds 0 frameRes).constructionMode = true := by
        rw [(mergePeaks_meta frameRes ds f0 0).2.2.2.2, hcm]
      rw [mergeFramesAux_dataArr_lt rest _ (f0 + 1) p (f0 + 0) a m hcm2 (by omega)]
      have hcell := mergePeaks_cell frameRes ds f0 0 p a m hcm (by simpa using hp)
      rw [Nat.zero_add] at hcell
      rw [Nat.add_zero]
      simp only [List.get]
      exact hcell
  | frameRes :: rest, ds, f0, j + 1, p, a, m, hcm, hj, hp => by
      rw [mergeFramesAux]
      have hcm2 : (mergePeaks f0 ds 0 frameRes).constructionMode = true := by
        rw [(mergePeaks_meta frameRes ds f0 0).2.2.2.2, hcm]
      have hj2 : j < rest.length := by
        have := hj
        simp only [List.length_cons] at this
        omega
      have hp2 : p < (rest.get ⟨j, hj2⟩).length := by simpa using hp
      have hIH := mergeFramesAux_cell rest (mergePeaks f0 ds 0 frameRes) (f0 + 1) j p a m hcm2 hj2 hp2
      have hfadd : f0 + (j + 1) = f0 + 1 + j := by omega
      rw [hfadd, hIH]
      have hagree : ∀ a3 m3,
          (mergePeaks f0 ds 0 frameRes).dataArr p (f0 + 1 + j) a3 m3 =
            ds.dataArr p (f0 + 1 + j) a3 m3 := by
        intro a3 m3
        exact mergePeaks_dataArr_ne frameRes ds f0 0 p (f0 + 1 + j) a3 m3 hcm (Or.inr (by omega))
      have hmp := mergePeaks_meta frameRes ds f0 0
      simp only [List.get_cons_succ]
      by_cases h : ((rest.get ⟨j, hj2⟩).get ⟨p, hp2⟩).isEmpty = true
      · rw [if_pos h, if_pos h]
        exact hagree a m
      · rw [if_neg h, if_neg h]
        exact setFrameData_cell_agree _ ds p (f0 + 1 + j) _ hcm2 hcm hmp.1 hmp.2.1
          hmp.2.2.1 hmp.2.2.2.1 hagree a m

/-- C1: the Result Aggregator writes the i-th frame result into frame
slot i, and the content of slot `(p, f)` of the merged dataset is fully
determined by `results[f][p]` and the pristine dataset alone — writing
any other frame or peak cannot affect it.  The merge is a pure function of
the ordered per-frame result list, so two runs with the same discovered
frame sequence and the same per-frame results (any worker count, any
completion order) produce identical dataset content. -/
theorem c1_merge_frame_slots (ds : XRDDatasetM) (results : List (List (List ResultRow)))
    (hcm : ds.constructionMode = true) (f p a m : ℕ)
    (hf : f < results.length) (hp : p < (results.get ⟨f, hf⟩).length) :
    (mergeFrames ds results).dataArr p f a m =
      (if ((results.get ⟨f, hf⟩).get ⟨p, hp⟩).isEmpty then ds.dataArr p f a m
       else (setFrameData ds p f ((results.get ⟨f, hf⟩).get ⟨p, hp⟩)).1.dataArr p f a m) := by
  have h := mergeFramesAux_cell results ds 0 f p a m hcm hf hp
  rw [Nat.zero_add] at h
  exact h

/-- C1 witness: a fresh 1-peak, 2-frame dataset and two one-row frame
results; frame 1's slot holds exactly what writing frame 1 alone writes. -/
theorem c1_merge_frame_slots_witness :
    ((createDataset 1 2 1 ["area"] 0 5).constructionMode = true) ∧
    (mergeFrames (createDataset 1 2 1 ["area"] 0 5)
        [[[⟨0, 0, [("area", Val.num 9)]⟩]], [[⟨0, 1, [("area", Val.num 4)]⟩]]]).dataArr 0 1 0 0 =
      (setFrameData (createDataset 1 2 1 ["area"] 0 5) 0 1
        [⟨0, 1, [("area", Val.num 4)]⟩]).1.dataArr 0 1 0 0 := by
  constructor
  · rfl
  · have h := c1_merge_frame_slots (createDataset 1 2 1 ["area"] 0 5)
      [[[⟨0, 0, [("area", Val.num 9)]⟩]], [[⟨0, 1, [("area", Val.num 4)]⟩]]] rfl 1 0 0 0
      (by norm_num) (by norm_num)
    simpa using h
